import Mathlib

/-!
Verification of the tic-tac-toe engine in `src/tic-tac-toe/src/App.tsx`.

The file embeds the game core of the two React variants (human-vs-human and
human-vs-computer) as executable Lean definitions and proves the specified
properties about them.  JavaScript peculiarities that the claims depend on are
modelled explicitly:

* the cells of a board are `Player | null`, modelled as `Option Player`;
* `board[i] === null` holds exactly when the index is in range and the cell is
  null, modelled as `b.get? i = some none`;
* a truthy test `board[index]` holds exactly when the read yields a mark
  (an out-of-range read gives `undefined`, which is falsy like `null`),
  modelled as `(b.getD index none).isSome`;
* an assignment `arr[index] = v` at an out-of-range index extends the array,
  modelled by `jsWrite`;
* the search folds its child scores starting from `-Infinity` / `Infinity`;
  the fragment of JavaScript numbers involved is modelled by `JNum`.
-/

namespace TicTac

set_option maxRecDepth 100000

/-- A player mark: `'X'` (the human side) or `'O'` (the automated side). -/
inductive Player where
  | X : Player
  | O : Player
deriving DecidableEq, Repr

/-- A cell of the grid: `none` models the JavaScript `null`. -/
abbrev Cell := Option Player

/-- A board: a JavaScript array `(Player | null)[]` (length 9 in the app). -/
abbrev Board := List Cell

/-- The other mark, as in `currentPlayer === 'X' ? 'O' : 'X'`. -/
def otherPlayer : Player → Player
  | .X => .O
  | .O => .X

/-- The 8 winning combinations, in source order: rows, columns, diagonals. -/
def winningCombinations : List (Nat × Nat × Nat) :=
  [(0, 1, 2), (3, 4, 5), (6, 7, 8),
   (0, 3, 6), (1, 4, 7), (2, 5, 8),
   (0, 4, 8), (2, 4, 6)]

/-- One iteration of the `checkWinner` loop:
`board[a] && board[a] === board[b] && board[a] === board[c]` yields the mark
`board[a]` when it holds.  An out-of-range read (`undefined`) is falsy and
compares unequal to a mark, exactly like a null cell. -/
def lineWinner (b : Board) (combo : Nat × Nat × Nat) : Option Player :=
  match b.getD combo.1 none with
  | none => none
  | some p =>
      if b.getD combo.2.1 none = some p ∧ b.getD combo.2.2 none = some p then
        some p
      else
        none

/-- `checkWinner`: scan the winning combinations in order and return the mark
of the first fully occupied one (source lines 29-37 and 203-211). -/
def checkWinner (b : Board) : Option Player :=
  winningCombinations.findSome? (lineWinner b)

/-- `isBoardFull`: `board.every(cell => cell !== null)`. -/
def isBoardFull (b : Board) : Bool :=
  b.all (fun c => c.isSome)

/-- `getEmptyCells`:
`board.map((cell, index) => cell === null ? index : -1).filter(index => index !== -1)`. -/
def getEmptyCells (b : Board) : List Int :=
  (b.enum.map (fun p => if p.2 = none then (p.1 : Int) else -1)).filter
    (fun i => i != -1)

/-- The indices `i < 9` whose cell is null, in ascending order.  On the
9-cell boards of the app this agrees with `getEmptyCells` (proved below);
it is also the set of indices the search loops recurse on. -/
def emptyIdx (b : Board) : List Nat :=
  (List.range 9).filter (fun i => decide (b.get? i = some none))

/-- The number of empty cells among indices `0..8`; the measure that bounds
the recursion depth of the search. -/
def countEmpty (b : Board) : Nat :=
  (emptyIdx b).length

/-- The fragment of JavaScript numbers reached by the search:
`-Infinity`, `Infinity` and integers. -/
inductive JNum where
  | negInf : JNum
  | posInf : JNum
  | int : Int → JNum
deriving DecidableEq, Repr

/-- `Math.max` on the numbers above. -/
def jmax : JNum → JNum → JNum
  | .negInf, y => y
  | .posInf, _ => .posInf
  | .int n, .negInf => .int n
  | .int _, .posInf => .posInf
  | .int n, .int m => .int (max n m)

/-- `Math.min` on the numbers above. -/
def jmin : JNum → JNum → JNum
  | .posInf, y => y
  | .negInf, _ => .negInf
  | .int n, .posInf => .int n
  | .int _, .negInf => .negInf
  | .int n, .int m => .int (min n m)

/-- The strict comparison `a > b` on the numbers above. -/
def jgt : JNum → JNum → Bool
  | .negInf, _ => false
  | .posInf, .posInf => false
  | .posInf, _ => true
  | .int _, .negInf => true
  | .int _, .posInf => false
  | .int n, .int m => decide (m < n)

/-- Negation on the numbers above. -/
def jneg : JNum → JNum
  | .negInf => .posInf
  | .posInf => .negInf
  | .int n => .int (-n)

/-- The body of `minimax` (source lines 225-254), indexed by fuel so that the
recursion is structural (written with the `Nat` recursor, so it reduces by
iota even in the kernel).  The fuel-exhausted branch returns `.int 0`; it is
unreachable once the fuel is at least the number of empty cells (proved
below), and `minimax` instantiates the fuel with exactly that number. -/
def minimaxF (fuel : Nat) : Board → Nat → Bool → JNum :=
  Nat.rec
    (motive := fun _ => Board → Nat → Bool → JNum)
    (fun b depth _ =>
      match checkWinner b with
      | some .O => .int (10 - (depth : Int))
      | some .X => .int ((depth : Int) - 10)
      | none => if isBoardFull b then .int 0 else .int 0)
    (fun _ prev b depth isMaximizing =>
      match checkWinner b with
      | some .O => .int (10 - (depth : Int))
      | some .X => .int ((depth : Int) - 10)
      | none =>
          if isBoardFull b then .int 0
          else
            if isMaximizing then
              (List.range 9).foldl
                (fun best i =>
                  if b.get? i = some none then
                    jmax (prev (b.set i (some .O)) (depth + 1) false) best
                  else best)
                .negInf
            else
              (List.range 9).foldl
                (fun best i =>
                  if b.get? i = some none then
                    jmin (prev (b.set i (some .X)) (depth + 1) true) best
                  else best)
                .posInf)
    fuel

/-- `minimax(board, depth, isMaximizing)`: the recursion of the source, run
with exactly as much fuel as there are empty cells.  For boards of at most
9 cells this satisfies the original recursion equations (proved below). -/
def minimax (b : Board) (depth : Nat) (isMaximizing : Bool) : JNum :=
  minimaxF (countEmpty b) b depth isMaximizing

/-- One iteration of the `getBestMove` loop: at an empty index, score the
board with `'O'` placed there and keep the strictly better `(score, move)`. -/
def bestStep (b : Board) (acc : JNum × Int) (i : Nat) : JNum × Int :=
  if b.get? i = some none then
    let score := minimax (b.set i (some .O)) 0 false
    if jgt score acc.1 then (score, (i : Int)) else acc
  else acc

/-- `getBestMove` (source lines 257-272): try `'O'` at every empty index,
keep the first index attaining the maximal `minimax(·, 0, false)` score,
starting from `bestScore = -Infinity`, `bestMove = -1`. -/
def getBestMove (b : Board) : Int :=
  ((List.range 9).foldl (bestStep b) (JNum.negInf, (-1 : Int))).2

/-- The game phase: `'playing' | 'won' | 'draw'`. -/
inductive GameState where
  | playing : GameState
  | won : GameState
  | draw : GameState
deriving DecidableEq, Repr

/-- The running statistics `{ xWins, oWins, draws }`. -/
structure GameStats where
  xWins : Nat
  oWins : Nat
  draws : Nat
deriving DecidableEq, Repr

/-- The state owned by the component: board, player to move, phase, recorded
winner and statistics. -/
structure Session where
  board : Board
  currentPlayer : Player
  gameState : GameState
  winner : Option Player
  stats : GameStats
deriving DecidableEq, Repr

/-- The initial state: `Array(9).fill(null)`, `'X'` to move, `'playing'`. -/
def initSession : Session :=
  { board := List.replicate 9 none
    currentPlayer := .X
    gameState := .playing
    winner := none
    stats := { xWins := 0, oWins := 0, draws := 0 } }

/-- JavaScript array assignment `arr[i] = v`: an in-range write replaces the
element, a write at `i ≥ length` extends the array.  The holes created for
`i > length` are modelled as null; no operation of the app reaches them. -/
def jsWrite (b : Board) (i : Nat) (v : Cell) : Board :=
  if i < b.length then b.set i v
  else b ++ List.replicate (i - b.length) none ++ [v]

/-- JavaScript array assignment at a possibly negative index: a negative
index is a plain property write that leaves the array elements untouched. -/
def jsWriteI (b : Board) (i : Int) (v : Cell) : Board :=
  if i < 0 then b else jsWrite b i.toNat v

/-- `stats[gameWinner === 'X' ? 'xWins' : 'oWins'] + 1`. -/
def recordWin (w : Player) (s : GameStats) : GameStats :=
  match w with
  | .X => { s with xWins := s.xWins + 1 }
  | .O => { s with oWins := s.oWins + 1 }

/-- The shared tail of `handleCellClick` and `makeComputerMove`: commit the
new board, then check the winner first and fullness only afterwards; when
play continues, install `nextPlayer` as the player to move. -/
def resolveMove (st : Session) (newBoard : Board) (nextPlayer : Player) : Session :=
  match checkWinner newBoard with
  | some w =>
      { st with
        board := newBoard
        winner := some w
        gameState := .won
        stats := recordWin w st.stats }
  | none =>
      if isBoardFull newBoard then
        { st with
          board := newBoard
          gameState := .draw
          stats := { st.stats with draws := st.stats.draws + 1 } }
      else
        { st with board := newBoard, currentPlayer := nextPlayer }

/-- `handleCellClick` of the two-human variant (source lines 45-66):
`if (board[index] || gameState !== 'playing') return;`, then place the
current player's mark and resolve. -/
def handleCellClick (st : Session) (index : Nat) : Session :=
  if (st.board.getD index none).isSome ∨ st.gameState ≠ .playing then st
  else
    resolveMove st (jsWrite st.board index (some st.currentPlayer))
      (otherPlayer st.currentPlayer)

/-- `handleCellClick` of the vs-computer variant (source lines 305-326):
additionally rejects the move when it is not `'X'`'s turn, always places
`'X'` and hands the turn to `'O'`. -/
def handleCellClickVsC (st : Session) (index : Nat) : Session :=
  if (st.board.getD index none).isSome ∨ st.gameState ≠ .playing ∨
      st.currentPlayer ≠ .X then st
  else
    resolveMove st (jsWrite st.board index (some .X)) .O

/-- `makeComputerMove` (source lines 274-303): return unchanged when no cell
is empty; otherwise play `getBestMove`, falling back to a random empty cell
when it returned `-1`.  The parameter `r` resolves `Math.random()`: the
fallback picks the element at position `r % length` of the empty cells. -/
def makeComputerMove (r : Nat) (st : Session) : Session :=
  let emptyCells := getEmptyCells st.board
  if emptyCells.length = 0 then st
  else
    let computerMove := getBestMove st.board
    let computerMove :=
      if computerMove = -1 then emptyCells.getD (r % emptyCells.length) (-1)
      else computerMove
    resolveMove st (jsWriteI st.board computerMove (some .O)) .X

/-- `resetGame` (source lines 69-74 and 340-345): fresh board and phase,
`'X'` to move; the statistics are untouched. -/
def resetGame (st : Session) : Session :=
  { st with
    board := List.replicate 9 none
    currentPlayer := .X
    gameState := .playing
    winner := none }

/-- `resetStats` (source lines 77-79 and 348-350): zero the three counters;
board and phase are untouched. -/
def resetStats (st : Session) : Session :=
  { st with stats := { xWins := 0, oWins := 0, draws := 0 } }

/-! ### The spec-side selector for the human mark

Only the `'O'`-side selector exists in the source; the optimal-self-play
property quantifies over both sides. -/

/-- The strict comparison `a < b` on the modelled JavaScript numbers. -/
def jlt (a b : JNum) : Bool := jgt b a

/-- Modelled from the spec: the minimizing selector for the human side.  The
spec posits "an automated player that always plays optimally on both sides";
the source implements only the `'O'` side (`getBestMove`), so the `'X'` side
mirrors it with `min`/`<` in place of `max`/`>`: try `'X'` at every empty
index, keep the first index attaining the minimal `minimax(·, 0, true)`
score, starting from `bestScore = Infinity`, `bestMove = -1`. -/
def bestStepX (b : Board) (acc : JNum × Int) (i : Nat) : JNum × Int :=
  if b.get? i = some none then
    let score := minimax (b.set i (some .X)) 0 true
    if jlt score acc.1 then (score, (i : Int)) else acc
  else acc

/-- Modelled from the spec: the `'X'`-side optimum selector (see
`bestStepX`). -/
def getBestMoveX (b : Board) : Int :=
  ((List.range 9).foldl (bestStepX b) (JNum.posInf, (-1 : Int))).2

/-- One ply of optimal self-play: the mover plays the move its selector
picks; `'X'` moves through `handleCellClick`, `'O'` through
`makeComputerMove` (whose random fallback is irrelevant: `0` is passed). -/
def selfPlayStep (st : Session) : Session :=
  if st.gameState = .playing then
    match st.currentPlayer with
    | .X => handleCellClick st (getBestMoveX st.board).toNat
    | .O => makeComputerMove 0 st
  else st

/-- `n` plies of optimal self-play. -/
def selfPlayN : Nat → Session → Session
  | 0, st => st
  | n + 1, st => selfPlayN n (selfPlayStep st)

/-! ### A fast, kernel-evaluable bound checker for the search

`minimax` on a list-of-cells board is too slow for kernel evaluation of
full game trees.  The checkers below run on two 9-bit masks (the `'X'`
cells and the `'O'` cells) and certify one-sided bounds on the score; their
soundness with respect to `minimaxF` is proved below through the `Encodes`
relation.  Their `all`/`any` combinators short-circuit, so a bound check
explores only a pruned part of the tree. -/

/-- `b` is a 9-cell board whose `'X'` cells are the bits of `x` and whose
`'O'` cells are the bits of `o`. -/
def Encodes (b : Board) (x o : Nat) : Prop :=
  b.length = 9 ∧ x < 512 ∧ o < 512 ∧
    ∀ i, i < 9 →
      (b.get? i = some (some .X) ↔ x.testBit i = true) ∧
      (b.get? i = some (some .O) ↔ o.testBit i = true)

instance (b : Board) (x o : Nat) : Decidable (Encodes b x o) := by
  unfold Encodes; infer_instance

/-- `lineWinner` on masks: within one combination the candidate mark is the
one occupying its first cell, so testing the `'X'` mask before the `'O'`
mask decides the same mark. -/
def lineWinnerFast (x o : Nat) (combo : Nat × Nat × Nat) : Option Player :=
  if x.testBit combo.1 && x.testBit combo.2.1 && x.testBit combo.2.2 then some .X
  else if o.testBit combo.1 && o.testBit combo.2.1 && o.testBit combo.2.2 then some .O
  else none

/-- `checkWinner` on masks: the same 8 combinations in the same order. -/
def winnerFast (x o : Nat) : Option Player :=
  winningCombinations.findSome? (lineWinnerFast x o)

/-- The nine cell indices, ordered centre first so that the short-circuit
search below finds certifying moves quickly.  Only coverage of `0..8`
matters for soundness, not the order. -/
def nine : List Nat := [4, 0, 2, 6, 8, 1, 3, 5, 7]

/-- Certifies `minimaxF fuel b depth isMax ≤ c` on masks: at a maximizing
node every empty cell must keep the bound, at a minimizing node one empty
cell suffices.  Written with the `Nat` recursor so the kernel evaluates it
by iota reduction. -/
def leB (fuel : Nat) : Nat → Nat → Nat → Bool → Int → Bool :=
  Nat.rec
    (motive := fun _ => Nat → Nat → Nat → Bool → Int → Bool)
    (fun x o depth _ c =>
      match winnerFast x o with
      | some .O => decide ((10 : Int) - depth ≤ c)
      | some .X => decide ((depth : Int) - 10 ≤ c)
      | none => decide ((0 : Int) ≤ c))
    (fun _ prev x o depth isMax c =>
      match winnerFast x o with
      | some .O => decide ((10 : Int) - depth ≤ c)
      | some .X => decide ((depth : Int) - 10 ≤ c)
      | none =>
          if x ||| o = 511 then decide ((0 : Int) ≤ c)
          else
            if isMax then
              nine.all (fun i =>
                ((x ||| o).testBit i) || prev x (o ||| (1 <<< i)) (depth + 1) false c)
            else
              nine.any (fun i =>
                (!(x ||| o).testBit i) && prev (x ||| (1 <<< i)) o (depth + 1) true c))
    fuel

/-- Certifies `c ≤ minimaxF fuel b depth isMax` on masks; dual to `leB`. -/
def geB (fuel : Nat) : Nat → Nat → Nat → Bool → Int → Bool :=
  Nat.rec
    (motive := fun _ => Nat → Nat → Nat → Bool → Int → Bool)
    (fun x o depth _ c =>
      match winnerFast x o with
      | some .O => decide (c ≤ (10 : Int) - depth)
      | some .X => decide (c ≤ (depth : Int) - 10)
      | none => decide (c ≤ (0 : Int)))
    (fun _ prev x o depth isMax c =>
      match winnerFast x o with
      | some .O => decide (c ≤ (10 : Int) - depth)
      | some .X => decide (c ≤ (depth : Int) - 10)
      | none =>
          if x ||| o = 511 then decide (c ≤ (0 : Int))
          else
            if isMax then
              nine.any (fun i =>
                (!(x ||| o).testBit i) && prev x (o ||| (1 <<< i)) (depth + 1) false c)
            else
              nine.all (fun i =>
                ((x ||| o).testBit i) || prev (x ||| (1 <<< i)) o (depth + 1) true c))
    fuel

/-- `v ≤ c`, for a modelled JavaScript number `v` and an integer `c`. -/
def jleInt : JNum → Int → Prop
  | .negInf, _ => True
  | .posInf, _ => False
  | .int v, c => v ≤ c

/-- `c ≤ v`, for a modelled JavaScript number `v` and an integer `c`. -/
def jgeInt : JNum → Int → Prop
  | .negInf, _ => False
  | .posInf, _ => True
  | .int v, c => c ≤ v

/-! ### Concrete boards and sessions used by the scenario claims -/

/-- The board of the forced-win scenario: the automated mark at 0 and 1,
the human mark at 3 and 4 (`[A,A,_, B,B,_, _,_,_]` with `A = 'O'`). -/
def boardC8 : Board :=
  [some .O, some .O, none, some .X, some .X, none, none, none, none]

/-- The forced-win scenario session: `'O'` to move on `boardC8`. -/
def sessionC8 : Session :=
  { board := boardC8
    currentPlayer := .O
    gameState := .playing
    winner := none
    stats := { xWins := 0, oWins := 0, draws := 0 } }

/-- A session used as a witness state: `'X'` to move, one empty cell at
index 2; placing `'X'` there completes the top row on a full board. -/
def sessionW : Session :=
  { board := [some .X, some .X, none,
              some .O, some .O, some .X,
              some .O, some .X, some .O]
    currentPlayer := .X
    gameState := .playing
    winner := none
    stats := { xWins := 3, oWins := 1, draws := 2 } }

/-- The boards of the optimal self-play line, one per ply
(`X0, O4, X1, O2, X6, O3, X5, O7, X8`). -/
def spBoard : Nat → Board
  | 0 => List.replicate 9 none
  | 1 => [some .X, none, none, none, none, none, none, none, none]
  | 2 => [some .X, none, none, none, some .O, none, none, none, none]
  | 3 => [some .X, some .X, none, none, some .O, none, none, none, none]
  | 4 => [some .X, some .X, some .O, none, some .O, none, none, none, none]
  | 5 => [some .X, some .X, some .O, none, some .O, none, some .X, none, none]
  | 6 => [some .X, some .X, some .O, some .O, some .O, none, some .X, none, none]
  | 7 => [some .X, some .X, some .O, some .O, some .O, some .X, some .X, none, none]
  | 8 => [some .X, some .X, some .O, some .O, some .O, some .X, some .X, some .O, none]
  | _ => [some .X, some .X, some .O, some .O, some .O, some .X, some .X, some .O, some .X]

/-- The sessions of the optimal self-play line after `k` plies. -/
def spSession (k : Nat) : Session :=
  { board := spBoard k
    currentPlayer := if k % 2 = 0 ∨ k = 9 then .X else .O
    gameState := if k = 9 then .draw else .playing
    winner := none
    stats := if k = 9 then { xWins := 0, oWins := 0, draws := 1 }
             else { xWins := 0, oWins := 0, draws := 0 } }

/-- Relabel every mark on the board with the other mark. -/
def swapBoard (b : Board) : Board :=
  b.map (Option.map otherPlayer)

/-- The three cells of a combination all hold the mark `p`. -/
def lineFilledWith (b : Board) (combo : Nat × Nat × Nat) (p : Player) : Prop :=
  b.getD combo.1 none = some p ∧ b.getD combo.2.1 none = some p ∧
    b.getD combo.2.2 none = some p

/-- A witness board whose only empty cell is index 8. -/
def boardW2 : Board :=
  [some .X, some .O, some .X, some .O, some .X, some .O, some .X, some .O, none]

/-- The shape shared by the two best-move loops: at an index satisfying `P`,
replace the accumulated `(score, move)` pair when the comparator strictly
prefers the new score. -/
def genStep (f : Nat → JNum) (cmp : JNum → JNum → Bool) (P : Nat → Prop)
    [DecidablePred P] (acc : JNum × Int) (i : Nat) : JNum × Int :=
  if P i then (if cmp (f i) acc.1 then (f i, (i : Int)) else acc) else acc

/-! ## Counting empty cells -/

lemma countEmpty_le_nine (b : Board) : countEmpty b ≤ 9 := by
  have h := List.length_filter_le (fun i => decide (b.get? i = some none)) (List.range 9)
  simpa [countEmpty, emptyIdx] using h

lemma filter_length_flip {p q : Nat → Bool} :
    ∀ (l : List Nat) (i : Nat), (∀ j ∈ l, j ≠ i → p j = q j) → p i = true → q i = false →
      List.count i l = 1 → (l.filter p).length = (l.filter q).length + 1 := by
  intro l
  induction l with
  | nil => intro i _ _ _ hcount; simp [List.count] at hcount
  | cons j t ih =>
    intro i hagree hp hq hcount
    by_cases hji : j = i
    · subst hji
      have hnot : j ∉ t := by
        have hcs : List.count j (j :: t) = List.count j t + 1 := List.count_cons_self j t
        exact List.not_mem_of_count_eq_zero (by omega)
      have hft : t.filter p = t.filter q :=
        List.filter_congr (fun x hx => hagree x (List.mem_cons_of_mem _ hx)
          (fun hxi => hnot (hxi ▸ hx)))
      rw [List.filter_cons_of_pos hp, List.filter_cons_of_neg (by simp [hq]), hft]
      simp
    · have hcount' : List.count i t = 1 := by
        rwa [List.count_cons_of_ne (fun h => hji h.symm) t] at hcount
      have hpq : p j = q j := hagree j (List.mem_cons_self _ _) hji
      have hrec := ih i (fun x hx hxi => hagree x (List.mem_cons_of_mem _ hx) hxi) hp hq hcount'
      cases hpj : p j
      · rw [List.filter_cons_of_neg (by simp [hpj]),
          List.filter_cons_of_neg (by simp [hpq ▸ hpj]), hrec]
      · rw [List.filter_cons_of_pos hpj, List.filter_cons_of_pos (hpq ▸ hpj)]
        simp [hrec]

lemma get?_set_same {b : Board} {i : Nat} (hlen : i < b.length) (c : Cell) :
    (b.set i c).get? i = some c := by
  rw [List.get?_eq_getElem?, List.getElem?_set_self hlen]

lemma get?_set_other (b : Board) (i j : Nat) (hne : j ≠ i) (c : Cell) :
    (b.set i c).get? j = b.get? j := by
  rw [List.get?_eq_getElem?, List.get?_eq_getElem?,
    List.getElem?_set_ne (fun h => hne h.symm)]

lemma countEmpty_set {b : Board} {i : Nat} (hi : i < 9) (he : b.get? i = some none)
    (p : Player) : countEmpty (b.set i (some p)) + 1 = countEmpty b := by
  have hlen : i < b.length := by
    obtain ⟨h, -⟩ := List.get?_eq_some.mp he
    exact h
  have hcount : List.count i (List.range 9) = 1 := by
    have hall : ∀ j, j < 9 → List.count j (List.range 9) = 1 := by decide
    exact hall i hi
  have hmain := filter_length_flip (p := fun j => decide (b.get? j = some none))
    (q := fun j => decide ((b.set i (some p)).get? j = some none)) (List.range 9) i
    (fun j _ hji => by
      show decide (b.get? j = some none) = decide ((b.set i (some p)).get? j = some none)
      rw [get?_set_other b i j hji])
    (by show decide (b.get? i = some none) = true; rw [he]; rfl)
    (by
      show decide ((b.set i (some p)).get? i = some none) = false
      rw [get?_set_same hlen]; rfl)
    hcount
  unfold countEmpty emptyIdx
  omega

lemma countEmpty_pos {b : Board} (h9 : b.length ≤ 9) (hf : isBoardFull b = false) :
    0 < countEmpty b := by
  have hnall : ¬(b.all (fun c => c.isSome) = true) := by
    intro h
    rw [isBoardFull] at hf
    rw [h] at hf
    exact Bool.true_eq_false.mp hf
  rw [List.all_eq_true] at hnall
  push_neg at hnall
  obtain ⟨c, hc, hcs⟩ := hnall
  have hcn : c = none := by cases c <;> simp_all
  subst hcn
  obtain ⟨n, hn⟩ := List.mem_iff_get?.mp hc
  have hn9 : n < 9 := by
    obtain ⟨h, -⟩ := List.get?_eq_some.mp hn
    omega
  have hmem : n ∈ emptyIdx b := by
    unfold emptyIdx
    rw [List.mem_filter]
    refine ⟨List.mem_range.mpr hn9, ?_⟩
    rw [hn]; rfl
  exact List.length_pos_of_mem hmem

/-! ## The recursion equation and fuel irrelevance of the search -/

lemma minimaxF_zero (b : Board) (depth : Nat) (m : Bool) :
    minimaxF 0 b depth m = match checkWinner b with
      | some .O => .int (10 - (depth : Int))
      | some .X => .int ((depth : Int) - 10)
      | none => if isBoardFull b then .int 0 else .int 0 := rfl

lemma minimaxF_succ (f : Nat) (b : Board) (depth : Nat) (m : Bool) :
    minimaxF (f + 1) b depth m = match checkWinner b with
      | some .O => .int (10 - (depth : Int))
      | some .X => .int ((depth : Int) - 10)
      | none =>
          if isBoardFull b then .int 0
          else
            if m then
              (List.range 9).foldl
                (fun best i =>
                  if b.get? i = some none then
                    jmax (minimaxF f (b.set i (some .O)) (depth + 1) false) best
                  else best)
                .negInf
            else
              (List.range 9).foldl
                (fun best i =>
                  if b.get? i = some none then
                    jmin (minimaxF f (b.set i (some .X)) (depth + 1) true) best
                  else best)
                .posInf := rfl

lemma minimaxF_winner_O {b : Board} (hw : checkWinner b = some .O)
    (fuel : Nat) (depth : Nat) (m : Bool) :
    minimaxF fuel b depth m = .int (10 - (depth : Int)) := by
  cases fuel with
  | zero => rw [minimaxF_zero, hw]
  | succ f => rw [minimaxF_succ, hw]

lemma minimaxF_winner_X {b : Board} (hw : checkWinner b = some .X)
    (fuel : Nat) (depth : Nat) (m : Bool) :
    minimaxF fuel b depth m = .int ((depth : Int) - 10) := by
  cases fuel with
  | zero => rw [minimaxF_zero, hw]
  | succ f => rw [minimaxF_succ, hw]

lemma minimaxF_full {b : Board} (hw : checkWinner b = none) (hf : isBoardFull b = true)
    (fuel : Nat) (depth : Nat) (m : Bool) : minimaxF fuel b depth m = .int 0 := by
  cases fuel with
  | zero => rw [minimaxF_zero, hw]; simp [hf]
  | succ f => rw [minimaxF_succ, hw]; simp [hf]

lemma minimaxF_eq_minimax : ∀ (fuel : Nat) (b : Board) (depth : Nat) (m : Bool),
    b.length ≤ 9 → countEmpty b ≤ fuel → minimaxF fuel b depth m = minimax b depth m := by
  intro fuel
  induction fuel with
  | zero =>
    intro b depth m _ hc
    have h0 : countEmpty b = 0 := Nat.le_zero.mp hc
    rw [minimax, h0]
  | succ f ih =>
    intro b depth m h9 hc
    cases hw : checkWinner b with
    | some p =>
      cases p
      · rw [minimax, minimaxF_winner_X hw, minimaxF_winner_X hw]
      · rw [minimax, minimaxF_winner_O hw, minimaxF_winner_O hw]
    | none =>
      cases hful : isBoardFull b with
      | true => rw [minimax, minimaxF_full hw hful, minimaxF_full hw hful]
      | false =>
        have hpos := countEmpty_pos h9 hful
        obtain ⟨c, hce⟩ : ∃ c, countEmpty b = c + 1 := ⟨countEmpty b - 1, by omega⟩
        rw [minimax, hce, minimaxF_succ f, minimaxF_succ c, hw]
        dsimp only
        rw [hful]
        simp only [Bool.false_eq_true, if_false]
        have hstep : ∀ (mark : Player) (m2 : Bool) (i : Nat), i ∈ List.range 9 →
            b.get? i = some none →
            minimaxF f (b.set i (some mark)) (depth + 1) m2 =
              minimaxF c (b.set i (some mark)) (depth + 1) m2 := by
          intro mark m2 i hi he
          have hi9 : i < 9 := List.mem_range.mp hi
          have hcc : countEmpty (b.set i (some mark)) = c := by
            have := countEmpty_set hi9 he mark
            omega
          have h9c : (b.set i (some mark)).length ≤ 9 := by
            rw [List.length_set]; exact h9
          rw [ih _ _ _ h9c (by omega), minimax, hcc]
        cases m with
        | true =>
          rw [if_pos rfl, if_pos rfl]
          apply List.foldl_ext
          intro acc i hi
          by_cases he : b.get? i = some none
          · rw [if_pos he, if_pos he, hstep Player.O false i hi he]
          · rw [if_neg he, if_neg he]
        | false =>
          rw [if_neg (by simp), if_neg (by simp)]
          apply List.foldl_ext
          intro acc i hi
          by_cases he : b.get? i = some none
          · rw [if_pos he, if_pos he, hstep Player.X true i hi he]
          · rw [if_neg he, if_neg he]

/-- The recursion equation of the source `minimax`, satisfied by the Lean
`minimax` on boards of at most 9 cells. -/
lemma minimax_unfold (b : Board) (depth : Nat) (m : Bool) (h9 : b.length ≤ 9) :
    minimax b depth m = match checkWinner b with
      | some .O => .int (10 - (depth : Int))
      | some .X => .int ((depth : Int) - 10)
      | none =>
          if isBoardFull b then .int 0
          else
            if m then
              (List.range 9).foldl
                (fun best i =>
                  if b.get? i = some none then
                    jmax (minimax (b.set i (some .O)) (depth + 1) false) best
                  else best)
                .negInf
            else
              (List.range 9).foldl
                (fun best i =>
                  if b.get? i = some none then
                    jmin (minimax (b.set i (some .X)) (depth + 1) true) best
                  else best)
                .posInf := by
  cases hw : checkWinner b with
  | some p =>
    cases p
    · rw [minimax, minimaxF_winner_X hw]
    · rw [minimax, minimaxF_winner_O hw]
  | none =>
    cases hful : isBoardFull b with
    | true => rw [minimax, minimaxF_full hw hful]; simp
    | false =>
      have hpos := countEmpty_pos h9 hful
      obtain ⟨c, hce⟩ : ∃ c, countEmpty b = c + 1 := ⟨countEmpty b - 1, by omega⟩
      rw [minimax, hce, minimaxF_succ c, hw]
      dsimp only
      rw [hful]
      simp only [Bool.false_eq_true, if_false]
      have hstep : ∀ (mark : Player) (m2 : Bool) (i : Nat), i ∈ List.range 9 →
          b.get? i = some none →
          minimaxF c (b.set i (some mark)) (depth + 1) m2 =
            minimax (b.set i (some mark)) (depth + 1) m2 := by
        intro mark m2 i hi he
        have hi9 : i < 9 := List.mem_range.mp hi
        have hcc : countEmpty (b.set i (some mark)) = c := by
          have := countEmpty_set hi9 he mark
          omega
        have h9c : (b.set i (some mark)).length ≤ 9 := by
          rw [List.length_set]; exact h9
        exact minimaxF_eq_minimax c _ _ _ h9c (by omega)
      cases m with
      | true =>
        rw [if_pos rfl, if_pos rfl]
        apply List.foldl_ext
        intro acc i hi
        by_cases he : b.get? i = some none
        · rw [if_pos he, if_pos he, hstep Player.O false i hi he]
        · rw [if_neg he, if_neg he]
      | false =>
        rw [if_neg (by simp), if_neg (by simp)]
        apply List.foldl_ext
        intro acc i hi
        by_cases he : b.get? i = some none
        · rw [if_pos he, if_pos he, hstep Player.X true i hi he]
        · rw [if_neg he, if_neg he]

/-! ## Reshaping the guarded fold of the recursion into a fold over the
empty indices -/

lemma jmax_comm (a b : JNum) : jmax a b = jmax b a := by
  cases a <;> cases b <;> simp only [jmax] <;> rw [Int.max_comm]

lemma jmin_comm (a b : JNum) : jmin a b = jmin b a := by
  cases a <;> cases b <;> simp only [jmin] <;> rw [Int.min_comm]

lemma foldl_filter_guard (p : Nat → Bool) (g : JNum → Nat → JNum) :
    ∀ (l : List Nat) (init : JNum),
      (l.filter p).foldl g init =
        l.foldl (fun acc i => if p i = true then g acc i else acc) init := by
  intro l
  induction l with
  | nil => intro init; rfl
  | cons a t ih =>
    intro init
    cases hp : p a
    · rw [List.filter_cons_of_neg (by simp [hp])]
      simp only [List.foldl_cons, hp, Bool.false_eq_true, if_false]
      exact ih init
    · rw [List.filter_cons_of_pos hp]
      simp only [List.foldl_cons, hp, if_true]
      exact ih (g init a)

lemma minimax_recursion_max (b : Board) (depth : Nat) (h9 : b.length ≤ 9)
    (hw : checkWinner b = none) (hful : isBoardFull b = false) :
    minimax b depth true =
      ((emptyIdx b).map (fun i => minimax (b.set i (some .O)) (depth + 1) false)).foldl
        jmax .negInf := by
  rw [minimax_unfold b depth true h9, hw]
  dsimp only
  rw [hful]
  simp only [Bool.false_eq_true, if_false, if_pos rfl]
  rw [List.foldl_map]
  unfold emptyIdx
  rw [foldl_filter_guard]
  apply List.foldl_ext
  intro acc i _
  by_cases he : b.get? i = some none
  · rw [if_pos he, if_pos (by simpa using he), jmax_comm]
  · rw [if_neg he, if_neg (by simpa using he)]

lemma minimax_recursion_min (b : Board) (depth : Nat) (h9 : b.length ≤ 9)
    (hw : checkWinner b = none) (hful : isBoardFull b = false) :
    minimax b depth false =
      ((emptyIdx b).map (fun i => minimax (b.set i (some .X)) (depth + 1) true)).foldl
        jmin .posInf := by
  rw [minimax_unfold b depth false h9, hw]
  dsimp only
  rw [hful]
  simp only [Bool.false_eq_true, if_false]
  rw [List.foldl_map]
  unfold emptyIdx
  rw [foldl_filter_guard]
  apply List.foldl_ext
  intro acc i _
  by_cases he : b.get? i = some none
  · rw [if_pos he, if_pos (by simpa using he), jmin_comm]
  · rw [if_neg he, if_neg (by simpa using he)]

lemma minimax_winner_O {b : Board} (hw : checkWinner b = some .O)
    (depth : Nat) (m : Bool) : minimax b depth m = .int (10 - (depth : Int)) :=
  minimaxF_winner_O hw _ depth m

lemma minimax_winner_X {b : Board} (hw : checkWinner b = some .X)
    (depth : Nat) (m : Bool) : minimax b depth m = .int ((depth : Int) - 10) :=
  minimaxF_winner_X hw _ depth m

lemma minimax_full {b : Board} (hw : checkWinner b = none)
    (hf : isBoardFull b = true) (depth : Nat) (m : Bool) :
    minimax b depth m = .int 0 :=
  minimaxF_full hw hf _ depth m

/-- C1: for every board and depth, the minimax score function returns
`10 - depth` when the winner is the maximizer `'O'`, `depth - 10` when the
winner is the minimizer `'X'`, `0` when the board is full with no winner,
and otherwise combines the scores of every empty index at `depth + 1` by
`max` on the maximizer's ply and by `min` on the minimizer's ply. -/
theorem claim_C1 (b : Board) (depth : Nat) (m : Bool) (h9 : b.length = 9) :
    (checkWinner b = some .O → minimax b depth m = .int (10 - (depth : Int))) ∧
    (checkWinner b = some .X → minimax b depth m = .int ((depth : Int) - 10)) ∧
    (checkWinner b = none → isBoardFull b = true → minimax b depth m = .int 0) ∧
    (checkWinner b = none → isBoardFull b = false →
      minimax b depth true =
        ((emptyIdx b).map (fun i => minimax (b.set i (some .O)) (depth + 1) false)).foldl
          jmax .negInf ∧
      minimax b depth false =
        ((emptyIdx b).map (fun i => minimax (b.set i (some .X)) (depth + 1) true)).foldl
          jmin .posInf) := by
  refine ⟨fun hw => minimax_winner_O hw depth m, fun hw => minimax_winner_X hw depth m,
    fun hw hf => minimax_full hw hf depth m, fun hw hf => ?_⟩
  exact ⟨minimax_recursion_max b depth (le_of_eq h9) hw hf,
    minimax_recursion_min b depth (le_of_eq h9) hw hf⟩

/-- Witness for C1 at the concrete board of the forced-win scenario. -/
theorem claim_C1_witness :
    (checkWinner boardC8 = some .O → minimax boardC8 0 true = .int (10 - (0 : Int))) ∧
    (checkWinner boardC8 = some .X → minimax boardC8 0 true = .int ((0 : Int) - 10)) ∧
    (checkWinner boardC8 = none → isBoardFull boardC8 = true →
      minimax boardC8 0 true = .int 0) ∧
    (checkWinner boardC8 = none → isBoardFull boardC8 = false →
      minimax boardC8 0 true =
        ((emptyIdx boardC8).map
          (fun i => minimax (boardC8.set i (some .O)) (0 + 1) false)).foldl jmax .negInf ∧
      minimax boardC8 0 false =
        ((emptyIdx boardC8).map
          (fun i => minimax (boardC8.set i (some .X)) (0 + 1) true)).foldl jmin .posInf) :=
  claim_C1 boardC8 0 true (by decide)

/-- C10: the minimax recursion is total: the fuel-indexed recursion is
insensitive to any fuel at least the number of empty cells (so that number
bounds the recursion depth), every recursive call strictly decreases the
number of empty cells, and the number of empty cells of a 9-cell board is
at most 9. -/
theorem claim_C10 (b : Board) (depth : Nat) (m : Bool) (fuel : Nat)
    (h9 : b.length = 9) (hf : countEmpty b ≤ fuel) :
    minimaxF fuel b depth m = minimax b depth m ∧
    countEmpty b ≤ 9 ∧
    (∀ i (p : Player), i < 9 → b.get? i = some none →
      countEmpty (b.set i (some p)) < countEmpty b) := by
  refine ⟨minimaxF_eq_minimax fuel b depth m (le_of_eq h9) hf, countEmpty_le_nine b, ?_⟩
  intro i p hi he
  have := countEmpty_set hi he p
  omega

/-- Witness for C10 at the empty board with fuel 9. -/
theorem claim_C10_witness :
    minimaxF 9 (List.replicate 9 none) 0 true = minimax (List.replicate 9 none) 0 true ∧
    countEmpty (List.replicate 9 none) ≤ 9 ∧
    (∀ i (p : Player), i < 9 → (List.replicate 9 (none : Cell)).get? i = some none →
      countEmpty ((List.replicate 9 (none : Cell)).set i (some p)) <
        countEmpty (List.replicate 9 none)) :=
  claim_C10 (List.replicate 9 none) 0 true 9 (by decide) (by decide)

/-! ## The mask encoding and its correspondence lemmas -/

lemma enc_get?_isSome {b : Board} {x o : Nat} (h : Encodes b x o) {i : Nat}
    (hi : i < 9) : ∃ c, b.get? i = some c := by
  have hlen : i < b.length := by rw [h.1]; exact hi
  exact ⟨_, List.get?_eq_get hlen⟩

lemma enc_cell_cases {b : Board} {x o : Nat} (h : Encodes b x o) {i : Nat}
    (hi : i < 9) :
    (b.get? i = some none ∧ x.testBit i = false ∧ o.testBit i = false) ∨
    (b.get? i = some (some .X) ∧ x.testBit i = true ∧ o.testBit i = false) ∨
    (b.get? i = some (some .O) ∧ x.testBit i = false ∧ o.testBit i = true) := by
  have hxiff := (h.2.2.2 i hi).1
  have hoiff := (h.2.2.2 i hi).2
  obtain ⟨c, hc⟩ := enc_get?_isSome h hi
  rw [hc] at hxiff hoiff
  match c, hc with
  | none, hc =>
    refine Or.inl ⟨hc, ?_, ?_⟩
    · cases htb : x.testBit i
      · rfl
      · exact absurd (hxiff.mpr htb) (by simp)
    · cases htb : o.testBit i
      · rfl
      · exact absurd (hoiff.mpr htb) (by simp)
  | some .X, hc =>
    refine Or.inr (Or.inl ⟨hc, hxiff.mp rfl, ?_⟩)
    cases htb : o.testBit i
    · rfl
    · exact absurd (hoiff.mpr htb) (by simp)
  | some .O, hc =>
    refine Or.inr (Or.inr ⟨hc, ?_, hoiff.mp rfl⟩)
    cases htb : x.testBit i
    · rfl
    · exact absurd (hxiff.mpr htb) (by simp)

lemma enc_empty {b : Board} {x o : Nat} (h : Encodes b x o) {i : Nat} (hi : i < 9) :
    b.get? i = some none ↔ (x ||| o).testBit i = false := by
  rw [Nat.testBit_lor]
  rcases enc_cell_cases h hi with ⟨hc, hx, ho⟩ | ⟨hc, hx, ho⟩ | ⟨hc, hx, ho⟩ <;>
    simp [← List.get?_eq_getElem?, hc, hx, ho]

lemma two_pow_lt_512 {i : Nat} (hi : i < 9) : 2 ^ i < 512 := by
  calc 2 ^ i < 2 ^ 9 := Nat.pow_lt_pow_right (by norm_num) hi
  _ = 512 := by norm_num

lemma enc_set_O {b : Board} {x o : Nat} (h : Encodes b x o) {i : Nat} (hi : i < 9)
    (he : b.get? i = some none) :
    Encodes (b.set i (some .O)) x (o ||| (1 <<< i)) := by
  obtain ⟨hlen, hx, ho, hbits⟩ := h
  have hilen : i < b.length := by rw [hlen]; exact hi
  refine ⟨by rw [List.length_set]; exact hlen, hx, ?_, ?_⟩
  · rw [Nat.one_shiftLeft]
    exact Nat.or_lt_two_pow (n := 9) ho (two_pow_lt_512 hi)
  · intro j hj
    have hxj := (hbits j hj).1
    have hoj := (hbits j hj).2
    rw [Nat.one_shiftLeft]
    constructor
    · by_cases hij : j = i
      · subst hij
        rw [get?_set_same hilen]
        have hxf : x.testBit j = false := by
          cases htb : x.testBit j
          · rfl
          · rw [hxj.mpr htb] at he; cases he
        simp [hxf]
      · rw [get?_set_other b i j hij]
        exact hxj
    · rw [Nat.testBit_lor]
      by_cases hij : j = i
      · subst hij
        rw [get?_set_same hilen, Nat.testBit_two_pow_self]
        simp
      · rw [get?_set_other b i j hij, Nat.testBit_two_pow_of_ne (fun hh => hij hh.symm),
          Bool.or_false]
        exact hoj

lemma enc_set_X {b : Board} {x o : Nat} (h : Encodes b x o) {i : Nat} (hi : i < 9)
    (he : b.get? i = some none) :
    Encodes (b.set i (some .X)) (x ||| (1 <<< i)) o := by
  obtain ⟨hlen, hx, ho, hbits⟩ := h
  have hilen : i < b.length := by rw [hlen]; exact hi
  refine ⟨by rw [List.length_set]; exact hlen, ?_, ho, ?_⟩
  · rw [Nat.one_shiftLeft]
    exact Nat.or_lt_two_pow (n := 9) hx (two_pow_lt_512 hi)
  · intro j hj
    have hxj := (hbits j hj).1
    have hoj := (hbits j hj).2
    rw [Nat.one_shiftLeft]
    constructor
    · rw [Nat.testBit_lor]
      by_cases hij : j = i
      · subst hij
        rw [get?_set_same hilen, Nat.testBit_two_pow_self]
        simp
      · rw [get?_set_other b i j hij, Nat.testBit_two_pow_of_ne (fun hh => hij hh.symm),
          Bool.or_false]
        exact hxj
    · by_cases hij : j = i
      · subst hij
        rw [get?_set_same hilen]
        have hof : o.testBit j = false := by
          cases htb : o.testBit j
          · rfl
          · rw [hoj.mpr htb] at he; cases he
        simp [hof]
      · rw [get?_set_other b i j hij]
        exact hoj

lemma getD_eq_of_get? {b : Board} {i : Nat} {c : Cell} (h : b.get? i = some c) :
    b.getD i none = c := by
  rw [List.getD_eq_get?, h]; rfl

lemma cell_eq_mark_iff {b : Board} {x o : Nat} (h : Encodes b x o) {i : Nat}
    (hi : i < 9) :
    (b.getD i none = some Player.X ↔ x.testBit i = true) ∧
    (b.getD i none = some Player.O ↔ o.testBit i = true) := by
  rcases enc_cell_cases h hi with ⟨hc, hx, ho⟩ | ⟨hc, hx, ho⟩ | ⟨hc, hx, ho⟩ <;>
    rw [getD_eq_of_get? hc] <;> simp [hx, ho]

lemma lineWinner_fast {b : Board} {x o : Nat} (h : Encodes b x o) (a c d : Nat)
    (ha : a < 9) (hc : c < 9) (hd : d < 9) :
    lineWinner b (a, c, d) = lineWinnerFast x o (a, c, d) := by
  unfold lineWinner lineWinnerFast
  dsimp only
  have hcx := (cell_eq_mark_iff h hc).1
  have hdx := (cell_eq_mark_iff h hd).1
  have hco := (cell_eq_mark_iff h hc).2
  have hdo := (cell_eq_mark_iff h hd).2
  rcases enc_cell_cases h ha with ⟨h1, hx1, ho1⟩ | ⟨h1, hx1, ho1⟩ | ⟨h1, hx1, ho1⟩
  · rw [getD_eq_of_get? h1]
    simp [hx1, ho1]
  · rw [getD_eq_of_get? h1]
    simp only [hx1, ho1, Bool.true_and, Bool.false_and, Bool.false_eq_true, if_false]
    by_cases h2 : x.testBit c = true
    · by_cases h3 : x.testBit d = true
      · rw [if_pos ⟨hcx.mpr h2, hdx.mpr h3⟩, if_pos (by rw [h2, h3]; rfl)]
      · rw [if_neg (fun hcon => h3 (hdx.mp hcon.2)),
          if_neg (by simp [Bool.not_eq_true] at h3; simp [h3])]
    · rw [if_neg (fun hcon => h2 (hcx.mp hcon.1)),
        if_neg (by simp [Bool.not_eq_true] at h2; simp [h2])]
  · rw [getD_eq_of_get? h1]
    simp only [hx1, ho1, Bool.true_and, Bool.false_and, Bool.false_eq_true, if_false]
    by_cases h2 : o.testBit c = true
    · by_cases h3 : o.testBit d = true
      · rw [if_pos ⟨hco.mpr h2, hdo.mpr h3⟩, if_pos (by rw [h2, h3]; rfl)]
      · rw [if_neg (fun hcon => h3 (hdo.mp hcon.2)),
          if_neg (by simp [Bool.not_eq_true] at h3; simp [h3])]
    · rw [if_neg (fun hcon => h2 (hco.mp hcon.1)),
        if_neg (by simp [Bool.not_eq_true] at h2; simp [h2])]

lemma findSome?_congr {α β : Type _} (f g : α → Option β) :
    ∀ l : List α, (∀ a ∈ l, f a = g a) → l.findSome? f = l.findSome? g := by
  intro l
  induction l with
  | nil => intro _; rfl
  | cons a t ih =>
    intro hag
    rw [List.findSome?_cons, List.findSome?_cons, hag a (List.mem_cons_self a t)]
    cases g a with
    | some p => rfl
    | none => exact ih (fun y hy => hag y (List.mem_cons_of_mem _ hy))

lemma checkWinner_fast {b : Board} {x o : Nat} (h : Encodes b x o) :
    checkWinner b = winnerFast x o := by
  unfold checkWinner winnerFast
  apply findSome?_congr
  intro combo hcombo
  fin_cases hcombo <;>
    exact lineWinner_fast h _ _ _ (by norm_num) (by norm_num) (by norm_num)

lemma isBoardFull_iff {b : Board} {x o : Nat} (h : Encodes b x o) :
    isBoardFull b = true ↔ x ||| o = 511 := by
  have hbound : x ||| o < 512 := Nat.or_lt_two_pow (n := 9) h.2.1 h.2.2.1
  constructor
  · intro hful
    have hall : ∀ i, i < 9 → (x ||| o).testBit i = true := by
      intro i hi
      rcases enc_cell_cases h hi with ⟨hcell, -, -⟩ | ⟨-, hx, -⟩ | ⟨-, -, ho⟩
      · exfalso
        rw [isBoardFull, List.all_eq_true] at hful
        have hmem : (none : Cell) ∈ b := List.mem_iff_get?.mpr ⟨i, hcell⟩
        have := hful none hmem
        simp at this
      · rw [Nat.testBit_lor, hx]; rfl
      · rw [Nat.testBit_lor, ho]; simp
    have hgen : ∀ y, y < 512 → (∀ i, i < 9 → y.testBit i = true) → y = 511 := by decide
    exact hgen _ hbound hall
  · intro h511
    rw [isBoardFull, List.all_eq_true]
    intro cell hmem
    obtain ⟨i, hget⟩ := List.mem_iff_get?.mp hmem
    have hi : i < 9 := by
      have hlt := (List.get?_eq_some.mp hget).1
      have := h.1
      omega
    rcases enc_cell_cases h hi with ⟨hcell, hx, ho⟩ | ⟨hcell, -, -⟩ | ⟨hcell, -, -⟩
    · exfalso
      have hbit : (511 : Nat).testBit i = true := by
        have hgen : ∀ j, j < 9 → (511 : Nat).testBit j = true := by decide
        exact hgen i hi
      rw [← h511, Nat.testBit_lor, hx, ho] at hbit
      cases hbit
    · rw [hget] at hcell
      cases hcell
      rfl
    · rw [hget] at hcell
      cases hcell
      rfl

/-! ## Soundness of the bound checkers -/

lemma leB_zero (x o : Nat) (depth : Nat) (m : Bool) (c : Int) :
    leB 0 x o depth m c = match winnerFast x o with
      | some .O => decide ((10 : Int) - depth ≤ c)
      | some .X => decide ((depth : Int) - 10 ≤ c)
      | none => decide ((0 : Int) ≤ c) := rfl

lemma leB_succ (f : Nat) (x o : Nat) (depth : Nat) (m : Bool) (c : Int) :
    leB (f + 1) x o depth m c = match winnerFast x o with
      | some .O => decide ((10 : Int) - depth ≤ c)
      | some .X => decide ((depth : Int) - 10 ≤ c)
      | none =>
          if x ||| o = 511 then decide ((0 : Int) ≤ c)
          else
            if m then
              nine.all (fun i =>
                ((x ||| o).testBit i) || leB f x (o ||| (1 <<< i)) (depth + 1) false c)
            else
              nine.any (fun i =>
                (!(x ||| o).testBit i) && leB f (x ||| (1 <<< i)) o (depth + 1) true c) := rfl

lemma geB_zero (x o : Nat) (depth : Nat) (m : Bool) (c : Int) :
    geB 0 x o depth m c = match winnerFast x o with
      | some .O => decide (c ≤ (10 : Int) - depth)
      | some .X => decide (c ≤ (depth : Int) - 10)
      | none => decide (c ≤ (0 : Int)) := rfl

lemma geB_succ (f : Nat) (x o : Nat) (depth : Nat) (m : Bool) (c : Int) :
    geB (f + 1) x o depth m c = match winnerFast x o with
      | some .O => decide (c ≤ (10 : Int) - depth)
      | some .X => decide (c ≤ (depth : Int) - 10)
      | none =>
          if x ||| o = 511 then decide (c ≤ (0 : Int))
          else
            if m then
              nine.any (fun i =>
                (!(x ||| o).testBit i) && geB f x (o ||| (1 <<< i)) (depth + 1) false c)
            else
              nine.all (fun i =>
                ((x ||| o).testBit i) || geB f (x ||| (1 <<< i)) o (depth + 1) true c) := rfl

lemma nine_mem : ∀ i, i < 9 → i ∈ nine := by decide

lemma nine_lt : ∀ i ∈ nine, i < 9 := by decide

lemma jleInt_jmax {a b : JNum} {c : Int} (ha : jleInt a c) (hb : jleInt b c) :
    jleInt (jmax a b) c := by
  match a, b with
  | .negInf, y => exact hb
  | .posInf, y => exact absurd ha (by simp [jleInt])
  | .int n, .negInf => exact ha
  | .int n, .posInf => exact absurd hb (by simp [jleInt])
  | .int n, .int k => exact max_le ha hb

lemma jleInt_jmin_left {a b : JNum} {c : Int} (ha : jleInt a c) :
    jleInt (jmin a b) c := by
  match a, b with
  | .negInf, y => trivial
  | .posInf, y => exact absurd ha (by simp [jleInt])
  | .int n, .negInf => trivial
  | .int n, .posInf => exact ha
  | .int n, .int k => exact le_trans (min_le_left n k) ha

lemma jleInt_jmin_right {a b : JNum} {c : Int} (hb : jleInt b c) :
    jleInt (jmin a b) c := by
  match a, b with
  | .negInf, y => trivial
  | .posInf, y => exact hb
  | .int n, .negInf => trivial
  | .int n, .posInf => exact absurd hb (by simp [jleInt])
  | .int n, .int k => exact le_trans (min_le_right n k) hb

lemma jgeInt_jmin {a b : JNum} {c : Int} (ha : jgeInt a c) (hb : jgeInt b c) :
    jgeInt (jmin a b) c := by
  match a, b with
  | .posInf, y => exact hb
  | .negInf, y => exact absurd ha (by simp [jgeInt])
  | .int n, .posInf => exact ha
  | .int n, .negInf => exact absurd hb (by simp [jgeInt])
  | .int n, .int k => exact le_min ha hb

lemma jgeInt_jmax_left {a b : JNum} {c : Int} (ha : jgeInt a c) :
    jgeInt (jmax a b) c := by
  match a, b with
  | .posInf, y => trivial
  | .negInf, y => exact absurd ha (by simp [jgeInt])
  | .int n, .posInf => trivial
  | .int n, .negInf => exact ha
  | .int n, .int k => exact le_trans ha (le_max_left n k)

lemma jgeInt_jmax_right {a b : JNum} {c : Int} (hb : jgeInt b c) :
    jgeInt (jmax a b) c := by
  match a, b with
  | .posInf, y => trivial
  | .negInf, y => exact hb
  | .int n, .posInf => trivial
  | .int n, .negInf => exact absurd hb (by simp [jgeInt])
  | .int n, .int k => exact le_trans hb (le_max_right n k)

lemma foldl_jmax_le {c : Int} (f : Nat → JNum) (P : Nat → Prop) [DecidablePred P] :
    ∀ (l : List Nat) (acc : JNum), jleInt acc c → (∀ i ∈ l, P i → jleInt (f i) c) →
      jleInt (l.foldl (fun best i => if P i then jmax (f i) best else best) acc) c := by
  intro l
  induction l with
  | nil => intro acc hacc _; exact hacc
  | cons a t ih =>
    intro acc hacc hall
    rw [List.foldl_cons]
    by_cases hpa : P a
    · rw [if_pos hpa]
      exact ih _ (jleInt_jmax (hall a (List.mem_cons_self a t) hpa) hacc)
        (fun i hi hp => hall i (List.mem_cons_of_mem _ hi) hp)
    · rw [if_neg hpa]
      exact ih _ hacc (fun i hi hp => hall i (List.mem_cons_of_mem _ hi) hp)

lemma foldl_jmin_le {c : Int} (f : Nat → JNum) (P : Nat → Prop) [DecidablePred P] :
    ∀ (l : List Nat) (acc : JNum),
      (jleInt acc c ∨ ∃ i ∈ l, P i ∧ jleInt (f i) c) →
      jleInt (l.foldl (fun best i => if P i then jmin (f i) best else best) acc) c := by
  intro l
  induction l with
  | nil =>
    intro acc h
    rcases h with h | ⟨i, hi, -⟩
    · exact h
    · cases hi
  | cons a t ih =>
    intro acc h
    rw [List.foldl_cons]
    rcases h with hacc | ⟨i, hi, hPi, hfi⟩
    · by_cases hpa : P a
      · rw [if_pos hpa]
        exact ih _ (Or.inl (jleInt_jmin_right hacc))
      · rw [if_neg hpa]
        exact ih _ (Or.inl hacc)
    · rcases List.mem_cons.mp hi with rfl | hit
      · rw [if_pos hPi]
        exact ih _ (Or.inl (jleInt_jmin_left hfi))
      · by_cases hpa : P a
        · rw [if_pos hpa]
          exact ih _ (Or.inr ⟨i, hit, hPi, hfi⟩)
        · rw [if_neg hpa]
          exact ih _ (Or.inr ⟨i, hit, hPi, hfi⟩)

lemma foldl_jmin_ge {c : Int} (f : Nat → JNum) (P : Nat → Prop) [DecidablePred P] :
    ∀ (l : List Nat) (acc : JNum), jgeInt acc c → (∀ i ∈ l, P i → jgeInt (f i) c) →
      jgeInt (l.foldl (fun best i => if P i then jmin (f i) best else best) acc) c := by
  intro l
  induction l with
  | nil => intro acc hacc _; exact hacc
  | cons a t ih =>
    intro acc hacc hall
    rw [List.foldl_cons]
    by_cases hpa : P a
    · rw [if_pos hpa]
      exact ih _ (jgeInt_jmin (hall a (List.mem_cons_self a t) hpa) hacc)
        (fun i hi hp => hall i (List.mem_cons_of_mem _ hi) hp)
    · rw [if_neg hpa]
      exact ih _ hacc (fun i hi hp => hall i (List.mem_cons_of_mem _ hi) hp)

lemma foldl_jmax_ge {c : Int} (f : Nat → JNum) (P : Nat → Prop) [DecidablePred P] :
    ∀ (l : List Nat) (acc : JNum),
      (jgeInt acc c ∨ ∃ i ∈ l, P i ∧ jgeInt (f i) c) →
      jgeInt (l.foldl (fun best i => if P i then jmax (f i) best else best) acc) c := by
  intro l
  induction l with
  | nil =>
    intro acc h
    rcases h with h | ⟨i, hi, -⟩
    · exact h
    · cases hi
  | cons a t ih =>
    intro acc h
    rw [List.foldl_cons]
    rcases h with hacc | ⟨i, hi, hPi, hfi⟩
    · by_cases hpa : P a
      · rw [if_pos hpa]
        exact ih _ (Or.inl (jgeInt_jmax_right hacc))
      · rw [if_neg hpa]
        exact ih _ (Or.inl hacc)
    · rcases List.mem_cons.mp hi with rfl | hit
      · rw [if_pos hPi]
        exact ih _ (Or.inl (jgeInt_jmax_left hfi))
      · by_cases hpa : P a
        · rw [if_pos hpa]
          exact ih _ (Or.inr ⟨i, hit, hPi, hfi⟩)
        · rw [if_neg hpa]
          exact ih _ (Or.inr ⟨i, hit, hPi, hfi⟩)

lemma jleInt_int {e c : Int} (h : e ≤ c) : jleInt (.int e) c := h

lemma jgeInt_int {e c : Int} (h : c ≤ e) : jgeInt (.int e) c := h

theorem leB_sound : ∀ (fuel : Nat) (b : Board) (x o : Nat) (depth : Nat) (m : Bool)
    (c : Int), Encodes b x o → leB fuel x o depth m c = true →
    jleInt (minimaxF fuel b depth m) c := by
  intro fuel
  induction fuel with
  | zero =>
    intro b x o depth m c hE hcert
    rw [leB_zero, ← checkWinner_fast hE] at hcert
    rw [minimaxF_zero]
    cases hw : checkWinner b with
    | some p =>
      rw [hw] at hcert
      cases p <;> dsimp only at hcert ⊢
      · exact jleInt_int (of_decide_eq_true hcert)
      · exact jleInt_int (of_decide_eq_true hcert)
    | none =>
      rw [hw] at hcert
      dsimp only at hcert ⊢
      rw [ite_self]
      exact jleInt_int (of_decide_eq_true hcert)
  | succ f ih =>
    intro b x o depth m c hE hcert
    rw [leB_succ, ← checkWinner_fast hE] at hcert
    rw [minimaxF_succ]
    cases hw : checkWinner b with
    | some p =>
      rw [hw] at hcert
      cases p <;> dsimp only at hcert ⊢
      · exact jleInt_int (of_decide_eq_true hcert)
      · exact jleInt_int (of_decide_eq_true hcert)
    | none =>
      rw [hw] at hcert
      dsimp only at hcert ⊢
      cases hful : isBoardFull b with
      | true =>
        have h511 : x ||| o = 511 := (isBoardFull_iff hE).mp hful
        rw [if_pos h511] at hcert
        rw [if_pos rfl]
        exact jleInt_int (of_decide_eq_true hcert)
      | false =>
        have h511 : ¬(x ||| o = 511) := fun hh =>
          by rw [(isBoardFull_iff hE).mpr hh] at hful; cases hful
        rw [if_neg h511] at hcert
        simp only [Bool.false_eq_true, if_false]
        cases m with
        | true =>
          rw [if_pos rfl] at hcert
          rw [if_pos rfl]
          rw [List.all_eq_true] at hcert
          refine foldl_jmax_le _ _ _ _ trivial ?_
          intro i hi hPi
          have hi9 : i < 9 := List.mem_range.mp hi
          have hstep := hcert i (nine_mem i hi9)
          have hbit : (x ||| o).testBit i = false := (enc_empty hE hi9).mp hPi
          rw [hbit, Bool.false_or] at hstep
          exact ih _ x (o ||| (1 <<< i)) _ false c (enc_set_O hE hi9 hPi) hstep
        | false =>
          rw [if_neg (by simp)] at hcert
          rw [if_neg (by simp)]
          rw [List.any_eq_true] at hcert
          obtain ⟨i, hmem, hI⟩ := hcert
          have hi9 : i < 9 := nine_lt i hmem
          rw [Bool.and_eq_true] at hI
          obtain ⟨hbitneg, hcert2⟩ := hI
          have hbit : (x ||| o).testBit i = false := by simpa using hbitneg
          have hempty : b.get? i = some none := (enc_empty hE hi9).mpr hbit
          refine foldl_jmin_le _ _ _ _ (Or.inr ⟨i, List.mem_range.mpr hi9, hempty, ?_⟩)
          exact ih _ (x ||| (1 <<< i)) o _ true c (enc_set_X hE hi9 hempty) hcert2

theorem geB_sound : ∀ (fuel : Nat) (b : Board) (x o : Nat) (depth : Nat) (m : Bool)
    (c : Int), Encodes b x o → geB fuel x o depth m c = true →
    jgeInt (minimaxF fuel b depth m) c := by
  intro fuel
  induction fuel with
  | zero =>
    intro b x o depth m c hE hcert
    rw [geB_zero, ← checkWinner_fast hE] at hcert
    rw [minimaxF_zero]
    cases hw : checkWinner b with
    | some p =>
      rw [hw] at hcert
      cases p <;> dsimp only at hcert ⊢
      · exact jgeInt_int (of_decide_eq_true hcert)
      · exact jgeInt_int (of_decide_eq_true hcert)
    | none =>
      rw [hw] at hcert
      dsimp only at hcert ⊢
      rw [ite_self]
      exact jgeInt_int (of_decide_eq_true hcert)
  | succ f ih =>
    intro b x o depth m c hE hcert
    rw [geB_succ, ← checkWinner_fast hE] at hcert
    rw [minimaxF_succ]
    cases hw : checkWinner b with
    | some p =>
      rw [hw] at hcert
      cases p <;> dsimp only at hcert ⊢
      · exact jgeInt_int (of_decide_eq_true hcert)
      · exact jgeInt_int (of_decide_eq_true hcert)
    | none =>
      rw [hw] at hcert
      dsimp only at hcert ⊢
      cases hful : isBoardFull b with
      | true =>
        have h511 : x ||| o = 511 := (isBoardFull_iff hE).mp hful
        rw [if_pos h511] at hcert
        rw [if_pos rfl]
        exact jgeInt_int (of_decide_eq_true hcert)
      | false =>
        have h511 : ¬(x ||| o = 511) := fun hh =>
          by rw [(isBoardFull_iff hE).mpr hh] at hful; cases hful
        rw [if_neg h511] at hcert
        simp only [Bool.false_eq_true, if_false]
        cases m with
        | true =>
          rw [if_pos rfl] at hcert
          rw [if_pos rfl]
          rw [List.any_eq_true] at hcert
          obtain ⟨i, hmem, hI⟩ := hcert
          have hi9 : i < 9 := nine_lt i hmem
          rw [Bool.and_eq_true] at hI
          obtain ⟨hbitneg, hcert2⟩ := hI
          have hbit : (x ||| o).testBit i = false := by simpa using hbitneg
          have hempty : b.get? i = some none := (enc_empty hE hi9).mpr hbit
          refine foldl_jmax_ge _ _ _ _ (Or.inr ⟨i, List.mem_range.mpr hi9, hempty, ?_⟩)
          exact ih _ x (o ||| (1 <<< i)) _ false c (enc_set_O hE hi9 hempty) hcert2
        | false =>
          rw [if_neg (by simp)] at hcert
          rw [if_neg (by simp)]
          rw [List.all_eq_true] at hcert
          refine foldl_jmin_ge _ _ _ _ trivial ?_
          intro i hi hPi
          have hi9 : i < 9 := List.mem_range.mp hi
          have hstep := hcert i (nine_mem i hi9)
          have hbit : (x ||| o).testBit i = false := (enc_empty hE hi9).mp hPi
          rw [hbit, Bool.false_or] at hstep
          exact ih _ (x ||| (1 <<< i)) o _ true c (enc_set_X hE hi9 hPi) hstep

lemma jleInt_jgeInt_eq {v : JNum} {c : Int} (hle : jleInt v c) (hge : jgeInt v c) :
    v = .int c := by
  match v with
  | .negInf => exact absurd hge (by simp [jgeInt])
  | .posInf => exact absurd hle (by simp [jleInt])
  | .int w => exact congrArg JNum.int (le_antisymm hle hge)

/-- Pin the exact value of `minimax` from a pair of mask-level certificates. -/
theorem minimax_eq_of_certs {b : Board} {x o : Nat} (hE : Encodes b x o)
    (depth : Nat) (m : Bool) (v : Int)
    (hle : leB (countEmpty b) x o depth m v = true)
    (hge : geB (countEmpty b) x o depth m v = true) :
    minimax b depth m = .int v :=
  jleInt_jgeInt_eq (leB_sound _ b x o depth m v hE hle)
    (geB_sound _ b x o depth m v hE hge)

/-- An upper bound on `minimax` from a mask-level certificate. -/
theorem minimax_le_of_cert {b : Board} {x o : Nat} (hE : Encodes b x o)
    (depth : Nat) (m : Bool) (c : Int)
    (hle : leB (countEmpty b) x o depth m c = true) :
    jleInt (minimax b depth m) c :=
  leB_sound _ b x o depth m c hE hle

/-- A lower bound on `minimax` from a mask-level certificate. -/
theorem minimax_ge_of_cert {b : Board} {x o : Nat} (hE : Encodes b x o)
    (depth : Nat) (m : Bool) (c : Int)
    (hge : geB (countEmpty b) x o depth m c = true) :
    jgeInt (minimax b depth m) c :=
  geB_sound _ b x o depth m c hE hge

/-! ## The best-move loops: generic characterization -/

lemma jgt_irrefl (a : JNum) : jgt a a = false := by
  cases a <;> simp [jgt]

lemma jgt_false_trans {a b c : JNum} (h1 : jgt a b = false) (h2 : jgt c b = true) :
    jgt a c = false := by
  cases a <;> cases b <;> cases c <;> simp_all [jgt] <;> omega

lemma jgt_true_trans {a b c : JNum} (h1 : jgt a b = false) (h2 : jgt c b = true) :
    jgt c a = true := by
  cases a <;> cases b <;> cases c <;> simp_all [jgt] <;> omega

lemma jgt_eq_false_of_jleInt {a : JNum} {c : Int} (h : jleInt a c) :
    jgt a (.int c) = false := by
  cases a <;> simp_all [jgt, jleInt] <;> omega

lemma jgt_eq_true_of_jleInt_pred {a : JNum} {c : Int} (h : jleInt a (c - 1)) :
    jgt (.int c) a = true := by
  cases a <;> simp_all [jgt, jleInt] <;> omega

lemma jgt_eq_false_of_jgeInt {a : JNum} {c : Int} (h : jgeInt a c) :
    jgt (.int c) a = false := by
  cases a <;> simp_all [jgt, jgeInt] <;> omega

lemma jgt_eq_true_of_jgeInt_succ {a : JNum} {c : Int} (h : jgeInt a (c + 1)) :
    jgt a (.int c) = true := by
  cases a <;> simp_all [jgt, jgeInt] <;> omega

lemma bestFold_spec (f : Nat → JNum) (P : Nat → Prop) [DecidablePred P]
    (cmp : JNum → JNum → Bool) (seed : JNum)
    (hseed : ∀ i, P i → cmp (f i) seed = true)
    (hirr : ∀ a, cmp a a = false)
    (hft : ∀ a b c, cmp a b = false → cmp c b = true → cmp a c = false)
    (htt : ∀ a b c, cmp a b = false → cmp c b = true → cmp c a = true) :
    ∀ n : Nat,
      ((∀ j, P j → ¬j < n) ∧
        (List.range n).foldl (genStep f cmp P) (seed, -1) = (seed, -1)) ∨
      (∃ k, P k ∧ k < n ∧
        (List.range n).foldl (genStep f cmp P) (seed, -1) = (f k, (k : Int)) ∧
        (∀ j, P j → j < n → cmp (f j) (f k) = false) ∧
        (∀ j, P j → j < n → j < k → cmp (f k) (f j) = true)) := by
  intro n
  induction n with
  | zero => exact Or.inl ⟨fun j _ hj => Nat.not_lt_zero j hj, rfl⟩
  | succ n ih =>
    rw [List.range_succ, List.foldl_append]
    rcases ih with ⟨hnone, hfold⟩ | ⟨k, hPk, hkn, hfold, hmax, hfirst⟩
    · rw [hfold]
      by_cases hP : P n
      · refine Or.inr ⟨n, hP, Nat.lt_succ_self n, ?_, ?_, ?_⟩
        · show genStep f cmp P (seed, -1) n = (f n, (n : Int))
          rw [genStep, if_pos hP, if_pos (hseed n hP)]
        · intro j hPj hj
          rcases Nat.lt_succ_iff_lt_or_eq.mp hj with hj2 | rfl
          · exact absurd hj2 (hnone j hPj)
          · exact hirr (f j)
        · intro j hPj hj hjk
          have hj2 : j < n := hjk
          exact absurd hj2 (hnone j hPj)
      · refine Or.inl ⟨?_, ?_⟩
        · intro j hPj hj
          rcases Nat.lt_succ_iff_lt_or_eq.mp hj with hj2 | rfl
          · exact hnone j hPj hj2
          · exact hP hPj
        · show genStep f cmp P (seed, -1) n = (seed, -1)
          rw [genStep, if_neg hP]
    · rw [hfold]
      by_cases hP : P n
      · cases hcmp : cmp (f n) (f k)
        · refine Or.inr ⟨k, hPk, Nat.lt_succ_of_lt hkn, ?_, ?_, ?_⟩
          · show genStep f cmp P (f k, (k : Int)) n = (f k, (k : Int))
            rw [genStep, if_pos hP]
            dsimp only
            rw [hcmp]
            rfl
          · intro j hPj hj
            rcases Nat.lt_succ_iff_lt_or_eq.mp hj with hj2 | rfl
            · exact hmax j hPj hj2
            · exact hcmp
          · intro j hPj hj hjk
            exact hfirst j hPj (Nat.lt_trans hjk hkn) hjk
        · refine Or.inr ⟨n, hP, Nat.lt_succ_self n, ?_, ?_, ?_⟩
          · show genStep f cmp P (f k, (k : Int)) n = (f n, (n : Int))
            rw [genStep, if_pos hP]
            dsimp only
            rw [hcmp]
            rfl
          · intro j hPj hj
            rcases Nat.lt_succ_iff_lt_or_eq.mp hj with hj2 | rfl
            · exact hft (f j) (f k) (f n) (hmax j hPj hj2) hcmp
            · exact hirr (f j)
          · intro j hPj hj hjn
            have hj2 : j < n := hjn
            exact htt (f j) (f k) (f n) (hmax j hPj hj2) hcmp
      · refine Or.inr ⟨k, hPk, Nat.lt_succ_of_lt hkn, ?_, ?_, ?_⟩
        · show genStep f cmp P (f k, (k : Int)) n = (f k, (k : Int))
          rw [genStep, if_neg hP]
        · intro j hPj hj
          rcases Nat.lt_succ_iff_lt_or_eq.mp hj with hj2 | rfl
          · exact hmax j hPj hj2
          · exact absurd hPj hP
        · intro j hPj hj hjk
          exact hfirst j hPj (Nat.lt_trans hjk hkn) hjk

lemma bestFold_det (f : Nat → JNum) (P : Nat → Prop) [DecidablePred P]
    (cmp : JNum → JNum → Bool) (seed : JNum)
    (hseed : ∀ i, P i → cmp (f i) seed = true)
    (hirr : ∀ a, cmp a a = false)
    (hft : ∀ a b c, cmp a b = false → cmp c b = true → cmp a c = false)
    (htt : ∀ a b c, cmp a b = false → cmp c b = true → cmp c a = true)
    (n : Nat) (k : Nat) (hPk : P k) (hkn : k < n)
    (hbest : ∀ j, P j → j < n → cmp (f j) (f k) = false)
    (hstrict : ∀ j, P j → j < n → j < k → cmp (f k) (f j) = true) :
    (List.range n).foldl (genStep f cmp P) (seed, -1) = (f k, (k : Int)) := by
  rcases bestFold_spec f P cmp seed hseed hirr hft htt n with
    ⟨hnone, -⟩ | ⟨k2, hPk2, hk2n, hfold, hmax, hfirst⟩
  · exact absurd hkn (hnone k hPk)
  · have hkk : k2 = k := by
      rcases Nat.lt_trichotomy k2 k with hlt | heq | hgt
      · have h1 := hstrict k2 hPk2 hk2n hlt
        have h2 := hmax k hPk hkn
        rw [h1] at h2
        cases h2
      · exact heq
      · have h1 := hfirst k hPk hkn hgt
        have h2 := hbest k2 hPk2 hk2n
        rw [h1] at h2
        cases h2
    rw [hkk] at hfold
    exact hfold

/-! ## The search value is always an integer on 9-cell boards -/

lemma foldl_cmb_int (cmb : JNum → JNum → JNum) (f : Nat → JNum) (P : Nat → Prop)
    [DecidablePred P] (seed : JNum)
    (hs : ∀ v : Int, cmb (.int v) seed = .int v)
    (hi : ∀ v w : Int, ∃ u : Int, cmb (.int v) (.int w) = .int u) :
    ∀ (l : List Nat) (acc : JNum), (acc = seed ∨ ∃ v : Int, acc = .int v) →
      (∀ i ∈ l, P i → ∃ v : Int, f i = .int v) →
      ((∃ i ∈ l, P i) ∨ ∃ v : Int, acc = .int v) →
      ∃ v : Int, (l.foldl (fun best i => if P i then cmb (f i) best else best) acc)
        = .int v := by
  intro l
  induction l with
  | nil =>
    intro acc _ _ hne
    rcases hne with ⟨i, hi2, -⟩ | hint
    · cases hi2
    · exact hint
  | cons a t ih =>
    intro acc hacc hall hne
    rw [List.foldl_cons]
    by_cases hPa : P a
    · rw [if_pos hPa]
      obtain ⟨v, hv⟩ := hall a (List.mem_cons_self a t) hPa
      have hnew : ∃ u : Int, cmb (f a) acc = .int u := by
        rcases hacc with rfl | ⟨w, rfl⟩
        · exact ⟨v, by rw [hv, hs]⟩
        · obtain ⟨u, hu⟩ := hi v w
          exact ⟨u, by rw [hv, hu]⟩
      obtain ⟨u, hu⟩ := hnew
      exact ih _ (Or.inr ⟨u, hu⟩) (fun i hi2 hp => hall i (List.mem_cons_of_mem _ hi2) hp)
        (Or.inr ⟨u, hu⟩)
    · rw [if_neg hPa]
      refine ih _ hacc (fun i hi2 hp => hall i (List.mem_cons_of_mem _ hi2) hp) ?_
      rcases hne with ⟨i, hi2, hPi⟩ | hint
      · rcases List.mem_cons.mp hi2 with rfl | hit
        · exact absurd hPi hPa
        · exact Or.inl ⟨i, hit, hPi⟩
      · exact Or.inr hint

lemma minimaxF_isInt : ∀ (fuel : Nat) (b : Board) (depth : Nat) (m : Bool),
    b.length ≤ 9 → countEmpty b ≤ fuel →
    ∃ v : Int, minimaxF fuel b depth m = .int v := by
  intro fuel
  induction fuel with
  | zero =>
    intro b depth m _ _
    rw [minimaxF_zero]
    cases hw : checkWinner b with
    | some p => cases p <;> exact ⟨_, rfl⟩
    | none =>
      dsimp only
      rw [ite_self]
      exact ⟨0, rfl⟩
  | succ f ih =>
    intro b depth m h9 hc
    cases hw : checkWinner b with
    | some p =>
      cases p
      · exact ⟨_, minimaxF_winner_X hw _ _ _⟩
      · exact ⟨_, minimaxF_winner_O hw _ _ _⟩
    | none =>
      cases hful : isBoardFull b with
      | true => exact ⟨0, minimaxF_full hw hful _ _ _⟩
      | false =>
        rw [minimaxF_succ, hw]
        dsimp only
        rw [hful]
        simp only [Bool.false_eq_true, if_false]
        have hpos := countEmpty_pos h9 hful
        have hwit : ∃ i ∈ List.range 9, b.get? i = some none := by
          have hne : emptyIdx b ≠ [] := by
            intro hnil
            rw [countEmpty, hnil] at hpos
            cases hpos
          obtain ⟨i, hmem⟩ := List.exists_mem_of_ne_nil _ hne
          rw [emptyIdx, List.mem_filter] at hmem
          exact ⟨i, hmem.1, of_decide_eq_true hmem.2⟩
        have hchild : ∀ (mark : Player) (m2 : Bool) (i : Nat), i ∈ List.range 9 →
            b.get? i = some none →
            ∃ v : Int, minimaxF f (b.set i (some mark)) (depth + 1) m2 = .int v := by
          intro mark m2 i hi he
          have hi9 : i < 9 := List.mem_range.mp hi
          refine ih _ _ _ (by rw [List.length_set]; exact h9) ?_
          have := countEmpty_set hi9 he mark
          omega
        cases m with
        | true =>
          rw [if_pos rfl]
          exact foldl_cmb_int jmax _ _ .negInf (fun v => rfl)
            (fun v w => ⟨max v w, rfl⟩) _ _ (Or.inl rfl)
            (fun i hi2 hp => hchild .O false i hi2 hp) (Or.inl hwit)
        | false =>
          rw [if_neg (by simp)]
          exact foldl_cmb_int jmin _ _ .posInf (fun v => rfl)
            (fun v w => ⟨min v w, rfl⟩) _ _ (Or.inl rfl)
            (fun i hi2 hp => hchild .X true i hi2 hp) (Or.inl hwit)

lemma minimax_isInt (b : Board) (depth : Nat) (m : Bool) (h9 : b.length ≤ 9) :
    ∃ v : Int, minimax b depth m = .int v :=
  minimaxF_isInt _ b depth m h9 (le_refl _)

/-! ## Characterizing the two selectors -/

lemma bestStep_eq (b : Board) :
    bestStep b = genStep (fun i => minimax (b.set i (some .O)) 0 false) jgt
      (fun i => b.get? i = some none) := by
  funext acc i
  rfl

lemma bestStepX_eq (b : Board) :
    bestStepX b = genStep (fun i => minimax (b.set i (some .X)) 0 true)
      (fun p q => jgt q p) (fun i => b.get? i = some none) := by
  funext acc i
  rfl

lemma mem_emptyIdx {b : Board} {j : Nat} :
    j ∈ emptyIdx b ↔ b.get? j = some none ∧ j < 9 := by
  rw [emptyIdx, List.mem_filter, List.mem_range, decide_eq_true_eq]
  exact and_comm

lemma jgt_flip_false_trans {a b c : JNum} (h1 : jgt b a = false)
    (h2 : jgt b c = true) : jgt c a = false := by
  cases a <;> cases b <;> cases c <;> simp_all [jgt] <;> omega

lemma jgt_flip_true_trans {a b c : JNum} (h1 : jgt b a = false)
    (h2 : jgt b c = true) : jgt a c = true := by
  cases a <;> cases b <;> cases c <;> simp_all [jgt] <;> omega

lemma childO_int {b : Board} (h9 : b.length = 9) (i : Nat) :
    ∃ v : Int, minimax (b.set i (some .O)) 0 false = .int v :=
  minimax_isInt _ 0 false (by rw [List.length_set]; omega)

lemma childX_int {b : Board} (h9 : b.length = 9) (i : Nat) :
    ∃ v : Int, minimax (b.set i (some .X)) 0 true = .int v :=
  minimax_isInt _ 0 true (by rw [List.length_set]; omega)

lemma hseedO {b : Board} (h9 : b.length = 9) :
    ∀ i, b.get? i = some none →
      jgt (minimax (b.set i (some .O)) 0 false) JNum.negInf = true := by
  intro i _
  obtain ⟨v, hv⟩ := childO_int h9 i
  rw [hv]
  rfl

lemma hseedX {b : Board} (h9 : b.length = 9) :
    ∀ i, b.get? i = some none →
      jgt JNum.posInf (minimax (b.set i (some .X)) 0 true) = true := by
  intro i _
  obtain ⟨v, hv⟩ := childX_int h9 i
  rw [hv]
  rfl

/-- The full characterization of `getBestMove` on a board with an empty
cell: the returned value is the first empty index whose child score is
maximal. -/
lemma getBestMove_spec (b : Board) (hne : emptyIdx b ≠ []) (h9 : b.length = 9) :
    ∃ i : Nat, getBestMove b = (i : Int) ∧ i ∈ emptyIdx b ∧
      (∀ j ∈ emptyIdx b,
        jgt (minimax (b.set j (some .O)) 0 false)
          (minimax (b.set i (some .O)) 0 false) = false) ∧
      (∀ j ∈ emptyIdx b, j < i →
        jgt (minimax (b.set i (some .O)) 0 false)
          (minimax (b.set j (some .O)) 0 false) = true) := by
  obtain ⟨i0, hi0⟩ := List.exists_mem_of_ne_nil _ hne
  rcases bestFold_spec (fun i => minimax (b.set i (some .O)) 0 false)
      (fun i => b.get? i = some none) jgt .negInf (hseedO h9)
      jgt_irrefl (fun a b2 c => jgt_false_trans) (fun a b2 c => jgt_true_trans) 9 with
    ⟨hnone, -⟩ | ⟨k, hPk, hk9, hfold, hmax, hfirst⟩
  · obtain ⟨hP0, h09⟩ := mem_emptyIdx.mp hi0
    exact absurd h09 (hnone i0 hP0)
  · refine ⟨k, ?_, mem_emptyIdx.mpr ⟨hPk, hk9⟩, ?_, ?_⟩
    · rw [getBestMove, bestStep_eq b, hfold]
    · intro j hj
      obtain ⟨hPj, hj9⟩ := mem_emptyIdx.mp hj
      exact hmax j hPj hj9
    · intro j hj hjk
      obtain ⟨hPj, hj9⟩ := mem_emptyIdx.mp hj
      exact hfirst j hPj hj9 hjk

/-- C2: on every 9-cell board with at least one empty cell, `getBestMove`
returns an empty in-range index (never the `-1` sentinel), namely the first
empty index attaining the maximal child score. -/
theorem claim_C2 (b : Board) (hne : emptyIdx b ≠ []) (h9 : b.length = 9) :
    ∃ i : Nat, getBestMove b = (i : Int) ∧ i ∈ emptyIdx b ∧
      (∀ j ∈ emptyIdx b,
        jgt (minimax (b.set j (some .O)) 0 false)
          (minimax (b.set i (some .O)) 0 false) = false) ∧
      (∀ j ∈ emptyIdx b, j < i →
        jgt (minimax (b.set i (some .O)) 0 false)
          (minimax (b.set j (some .O)) 0 false) = true) :=
  getBestMove_spec b hne h9

/-- Witness for C2 at a near-full board whose only empty cell is index 8. -/
theorem claim_C2_witness :
    ∃ i : Nat, getBestMove boardW2 = (i : Int) ∧ i ∈ emptyIdx boardW2 ∧
      (∀ j ∈ emptyIdx boardW2,
        jgt (minimax (boardW2.set j (some .O)) 0 false)
          (minimax (boardW2.set i (some .O)) 0 false) = false) ∧
      (∀ j ∈ emptyIdx boardW2, j < i →
        jgt (minimax (boardW2.set i (some .O)) 0 false)
          (minimax (boardW2.set j (some .O)) 0 false) = true) :=
  claim_C2 boardW2 (by decide) (by decide)

/-- Pin the output of `getBestMove` from an exact score for the chosen index
and score bounds for the other empty indices. -/
lemma getBestMove_det (b : Board) (h9 : b.length = 9) (k : Nat) (s : Int)
    (hk : b.get? k = some none) (hk9 : k < 9)
    (hks : minimax (b.set k (some .O)) 0 false = .int s)
    (hbest : ∀ j, b.get? j = some none → j < 9 →
      jleInt (minimax (b.set j (some .O)) 0 false) s)
    (hstrict : ∀ j, b.get? j = some none → j < 9 → j < k →
      jleInt (minimax (b.set j (some .O)) 0 false) (s - 1)) :
    getBestMove b = (k : Int) := by
  rw [getBestMove, bestStep_eq b,
    bestFold_det (fun i => minimax (b.set i (some .O)) 0 false)
      (fun i => b.get? i = some none) jgt .negInf (hseedO h9) jgt_irrefl
      (fun a b2 c => jgt_false_trans) (fun a b2 c => jgt_true_trans) 9 k hk hk9
      (fun j hPj hj9 => by
        dsimp only
        rw [hks]
        exact jgt_eq_false_of_jleInt (hbest j hPj hj9))
      (fun j hPj hj9 hjk => by
        dsimp only
        rw [hks]
        exact jgt_eq_true_of_jleInt_pred (hstrict j hPj hj9 hjk))]

/-- Pin the output of the minimizing selector `getBestMoveX` likewise. -/
lemma getBestMoveX_det (b : Board) (h9 : b.length = 9) (k : Nat) (s : Int)
    (hk : b.get? k = some none) (hk9 : k < 9)
    (hks : minimax (b.set k (some .X)) 0 true = .int s)
    (hbest : ∀ j, b.get? j = some none → j < 9 →
      jgeInt (minimax (b.set j (some .X)) 0 true) s)
    (hstrict : ∀ j, b.get? j = some none → j < 9 → j < k →
      jgeInt (minimax (b.set j (some .X)) 0 true) (s + 1)) :
    getBestMoveX b = (k : Int) := by
  rw [getBestMoveX, bestStepX_eq b,
    bestFold_det (fun i => minimax (b.set i (some .X)) 0 true)
      (fun i => b.get? i = some none) (fun p q => jgt q p) .posInf (hseedX h9)
      jgt_irrefl
      (fun a b2 c h1 h2 => jgt_flip_false_trans h1 h2)
      (fun a b2 c h1 h2 => jgt_flip_true_trans h1 h2) 9 k hk hk9
      (fun j hPj hj9 => by
        dsimp only
        rw [hks]
        exact jgt_eq_false_of_jgeInt (hbest j hPj hj9))
      (fun j hPj hj9 hjk => by
        dsimp only
        rw [hks]
        exact jgt_eq_true_of_jgeInt_succ (hstrict j hPj hj9 hjk))]

/-! ## The session state machine -/

lemma resolveMove_won {st : Session} {nb : Board} {np : Player} {w : Player}
    (hw : checkWinner nb = some w) :
    resolveMove st nb np =
      { st with
        board := nb
        winner := some w
        gameState := .won
        stats := recordWin w st.stats } := by
  unfold resolveMove
  rw [hw]

lemma resolveMove_draw {st : Session} {nb : Board} {np : Player}
    (hw : checkWinner nb = none) (hf : isBoardFull nb = true) :
    resolveMove st nb np =
      { st with
        board := nb
        gameState := .draw
        stats := { st.stats with draws := st.stats.draws + 1 } } := by
  unfold resolveMove
  rw [hw]
  dsimp only
  rw [if_pos hf]

lemma resolveMove_cont {st : Session} {nb : Board} {np : Player}
    (hw : checkWinner nb = none) (hf : isBoardFull nb = false) :
    resolveMove st nb np = { st with board := nb, currentPlayer := np } := by
  unfold resolveMove
  rw [hw]
  dsimp only
  rw [if_neg (by rw [hf]; exact Bool.false_ne_true)]

lemma resolveMove_board (st : Session) (nb : Board) (np : Player) :
    (resolveMove st nb np).board = nb := by
  cases hw : checkWinner nb with
  | some w => rw [resolveMove_won hw]
  | none =>
    cases hf : isBoardFull nb with
    | true => rw [resolveMove_draw hw hf]
    | false => rw [resolveMove_cont hw hf]

lemma resolveMove_phase (st : Session) (nb : Board) (np : Player)
    (hst : st.gameState = .playing) :
    (∀ w, checkWinner nb = some w →
      (resolveMove st nb np).gameState = .won ∧
      (resolveMove st nb np).winner = some w ∧
      (resolveMove st nb np).stats = recordWin w st.stats) ∧
    ((resolveMove st nb np).gameState = .draw ↔
      checkWinner nb = none ∧ isBoardFull nb = true) ∧
    ((resolveMove st nb np).gameState = .draw →
      (resolveMove st nb np).stats.draws = st.stats.draws + 1) := by
  cases hw : checkWinner nb with
  | some w =>
    rw [resolveMove_won hw]
    refine ⟨?_, ?_, ?_⟩
    · intro w2 hw2
      cases hw2
      exact ⟨rfl, rfl, rfl⟩
    · constructor
      · intro hcon; cases hcon
      · rintro ⟨hnone, -⟩; cases hnone
    · intro hcon; cases hcon
  | none =>
    cases hf : isBoardFull nb with
    | true =>
      rw [resolveMove_draw hw hf]
      refine ⟨?_, ?_, ?_⟩
      · intro w2 hw2; cases hw2
      · exact ⟨fun _ => ⟨rfl, rfl⟩, fun _ => rfl⟩
      · intro _; rfl
    | false =>
      rw [resolveMove_cont hw hf]
      refine ⟨?_, ?_, ?_⟩
      · intro w2 hw2; cases hw2
      · constructor
        · intro hcon
          rw [hst] at hcon
          cases hcon
        · rintro ⟨-, hcon⟩; cases hcon
      · intro hcon
        rw [hst] at hcon
        cases hcon

lemma handleCellClick_accepted {st : Session} {i : Nat}
    (hp : st.gameState = .playing) (he : st.board.getD i none = none) :
    handleCellClick st i =
      resolveMove st (jsWrite st.board i (some st.currentPlayer))
        (otherPlayer st.currentPlayer) := by
  rw [handleCellClick, if_neg]
  rw [not_or]
  refine ⟨?_, fun hcon => hcon hp⟩
  rw [he]
  exact Bool.false_ne_true

lemma length_eq_zero_iff {l : List Int} : l.length = 0 ↔ l = [] :=
  List.length_eq_zero

lemma makeComputerMove_eq {st : Session} {r : Nat}
    (hne : getEmptyCells st.board ≠ []) :
    ∃ mv : Int,
      (mv = (if getBestMove st.board = -1
        then (getEmptyCells st.board).getD
          (r % (getEmptyCells st.board).length) (-1)
        else getBestMove st.board)) ∧
      makeComputerMove r st = resolveMove st (jsWriteI st.board mv (some .O)) .X := by
  rw [makeComputerMove]
  rw [if_neg (fun hcon => hne (length_eq_zero_iff.mp hcon))]
  exact ⟨_, rfl, rfl⟩

/-- C3: a move whose committed board holds a winning line sends the phase to
Won with the matching win counter bumped, even when that board is also full;
the phase becomes Drawn exactly when the committed board is full without a
winner, and then the draw counter is bumped — the win check precedes the
draw check, in both the click handler and the computer move. -/
theorem claim_C3 (st : Session) (i r : Nat)
    (hp : st.gameState = .playing) (he : st.board.getD i none = none) :
    ((∀ w, checkWinner (handleCellClick st i).board = some w →
      (handleCellClick st i).gameState = .won ∧
      (handleCellClick st i).winner = some w ∧
      (handleCellClick st i).stats = recordWin w st.stats) ∧
    ((handleCellClick st i).gameState = .draw ↔
      checkWinner (handleCellClick st i).board = none ∧
      isBoardFull (handleCellClick st i).board = true) ∧
    ((handleCellClick st i).gameState = .draw →
      (handleCellClick st i).stats.draws = st.stats.draws + 1)) ∧
    (getEmptyCells st.board ≠ [] →
      (∀ w, checkWinner (makeComputerMove r st).board = some w →
        (makeComputerMove r st).gameState = .won ∧
        (makeComputerMove r st).winner = some w ∧
        (makeComputerMove r st).stats = recordWin w st.stats) ∧
      ((makeComputerMove r st).gameState = .draw ↔
        checkWinner (makeComputerMove r st).board = none ∧
        isBoardFull (makeComputerMove r st).board = true) ∧
      ((makeComputerMove r st).gameState = .draw →
        (makeComputerMove r st).stats.draws = st.stats.draws + 1)) := by
  constructor
  · rw [handleCellClick_accepted hp he,
      resolveMove_board st (jsWrite st.board i (some st.currentPlayer))
        (otherPlayer st.currentPlayer)]
    exact resolveMove_phase st _ _ hp
  · intro hne
    obtain ⟨mv, -, hmv⟩ := makeComputerMove_eq (r := r) hne
    rw [hmv, resolveMove_board st (jsWriteI st.board mv (some .O)) .X]
    exact resolveMove_phase st _ _ hp

/-- Witness for C3: completing the top row on the last empty cell of a full
board reports Won (not Drawn) for both move paths. -/
theorem claim_C3_witness :
    ((∀ w, checkWinner (handleCellClick sessionW 2).board = some w →
      (handleCellClick sessionW 2).gameState = .won ∧
      (handleCellClick sessionW 2).winner = some w ∧
      (handleCellClick sessionW 2).stats = recordWin w sessionW.stats) ∧
    ((handleCellClick sessionW 2).gameState = .draw ↔
      checkWinner (handleCellClick sessionW 2).board = none ∧
      isBoardFull (handleCellClick sessionW 2).board = true) ∧
    ((handleCellClick sessionW 2).gameState = .draw →
      (handleCellClick sessionW 2).stats.draws = sessionW.stats.draws + 1)) ∧
    (getEmptyCells sessionW.board ≠ [] →
      (∀ w, checkWinner (makeComputerMove 0 sessionW).board = some w →
        (makeComputerMove 0 sessionW).gameState = .won ∧
        (makeComputerMove 0 sessionW).winner = some w ∧
        (makeComputerMove 0 sessionW).stats = recordWin w sessionW.stats) ∧
      ((makeComputerMove 0 sessionW).gameState = .draw ↔
        checkWinner (makeComputerMove 0 sessionW).board = none ∧
        isBoardFull (makeComputerMove 0 sessionW).board = true) ∧
      ((makeComputerMove 0 sessionW).gameState = .draw →
        (makeComputerMove 0 sessionW).stats.draws = sessionW.stats.draws + 1)) :=
  claim_C3 sessionW 2 0 (by decide) (by decide)

/-- C4, amended: a move targeting an occupied cell, or submitted while the
phase is not `'playing'`, is a complete no-op: board, phase, player and
statistics are all unchanged.  (A move at an index outside `[0,8]` is NOT
validated: the guard reads the missing cell as empty and the move proceeds —
see the counterexample.) -/
theorem claim_C4 (st : Session) (i : Nat)
    (hrej : (st.board.getD i none).isSome = true ∨ st.gameState ≠ .playing) :
    handleCellClick st i = st := by
  rw [handleCellClick, if_pos hrej]

/-- Witness for C4 at an occupied cell of a mid-game session. -/
theorem claim_C4_witness : handleCellClick sessionW 0 = sessionW :=
  claim_C4 sessionW 0 (Or.inl (by decide))

/-- Counterexample to C4 as stated: submitting index 9 on a fresh session is
not rejected — the guard reads `board[9]` as `undefined` (falsy), the board
grows to 10 cells and the turn flips to `'O'`. -/
theorem claim_C4_counterexample :
    (handleCellClick initSession 9).currentPlayer = .O ∧
    (handleCellClick initSession 9).board.length = 10 ∧
    handleCellClick initSession 9 ≠ initSession := by
  decide

/-! ## The computer move writes to an empty in-range cell -/

lemma mem_getEmptyCells {b : Board} {v : Int} :
    v ∈ getEmptyCells b ↔
      ∃ i : Nat, v = (i : Int) ∧ i < b.length ∧ b.get? i = some none := by
  rw [getEmptyCells, List.mem_filter, List.mem_map]
  constructor
  · rintro ⟨⟨⟨i, c⟩, hmem, hfp⟩, hne⟩
    dsimp only at hfp
    by_cases h2 : c = none
    · rw [if_pos h2] at hfp
      subst h2
      have hget : b.get? i = some none := by
        have := List.mk_mem_enum_iff_getElem?.mp hmem
        rw [List.get?_eq_getElem?]
        exact this
      exact ⟨i, hfp.symm, (List.get?_eq_some.mp hget).1, hget⟩
    · rw [if_neg h2] at hfp
      rw [← hfp] at hne
      simp at hne
  · rintro ⟨i, rfl, hilen, hget⟩
    refine ⟨⟨⟨i, none⟩, ?_, ?_⟩, ?_⟩
    · rw [List.mk_mem_enum_iff_getElem?, ← List.get?_eq_getElem?]
      exact hget
    · rw [if_pos rfl]
    · simp only [bne_iff_ne, ne_eq]
      omega

lemma getEmptyCells_getD_mem {b : Board} (hne : getEmptyCells b ≠ []) (r : Nat) :
    (getEmptyCells b).getD (r % (getEmptyCells b).length) (-1) ∈ getEmptyCells b := by
  have hlen : 0 < (getEmptyCells b).length := List.length_pos.mpr hne
  have hlt : r % (getEmptyCells b).length < (getEmptyCells b).length :=
    Nat.mod_lt r hlen
  rw [List.getD_eq_get?, List.get?_eq_get hlt]
  exact List.get_mem _ _ _

lemma emptyIdx_ne_nil_of {b : Board} (h9 : b.length = 9)
    (hne : getEmptyCells b ≠ []) : emptyIdx b ≠ [] := by
  obtain ⟨v, hv⟩ := List.exists_mem_of_ne_nil _ hne
  obtain ⟨i, -, hilen, hget⟩ := mem_getEmptyCells.mp hv
  exact List.ne_nil_of_mem (mem_emptyIdx.mpr ⟨hget, by omega⟩)

lemma makeComputerMove_board {st : Session} {r : Nat}
    (h9 : st.board.length = 9) (hne : getEmptyCells st.board ≠ []) :
    ∃ k : Nat, k < 9 ∧ st.board.get? k = some none ∧
      makeComputerMove r st = resolveMove st (st.board.set k (some .O)) .X := by
  obtain ⟨mv, hmvdef, hmv⟩ := makeComputerMove_eq (r := r) hne
  by_cases hbm : getBestMove st.board = -1
  · rw [if_pos hbm] at hmvdef
    have hmem : mv ∈ getEmptyCells st.board := by
      rw [hmvdef]
      exact getEmptyCells_getD_mem hne r
    obtain ⟨k, rfl, hklen, hget⟩ := mem_getEmptyCells.mp hmem
    refine ⟨k, by omega, hget, ?_⟩
    rw [hmv, jsWriteI, if_neg (by omega), jsWrite, if_pos (by simpa using hklen),
      Int.toNat_ofNat]
  · rw [if_neg hbm] at hmvdef
    obtain ⟨k, hk, hkmem, -, -⟩ :=
      getBestMove_spec st.board (emptyIdx_ne_nil_of h9 hne) h9
    obtain ⟨hget, hk9⟩ := mem_emptyIdx.mp hkmem
    refine ⟨k, hk9, hget, ?_⟩
    rw [hmv, hmvdef, hk, jsWriteI, if_neg (by omega), jsWrite,
      if_pos (by rw [h9]; simpa using hk9), Int.toNat_ofNat]

/-- C5, amended: every operation of the session at an in-range move index
(below 9) keeps the board at exactly 9 cells, and no placed mark is ever
changed or cleared by a move — only the explicit `resetGame` replaces the
board wholesale (with a fresh 9-cell board), and `resetStats` leaves the
board untouched.  The in-range hypothesis is necessary: an out-of-range
human move grows the board instead (see the counterexample). -/
theorem claim_C5 (st : Session) (i r j : Nat) (p : Player)
    (h9 : st.board.length = 9) (hi : i < 9) :
    (handleCellClick st i).board.length = 9 ∧
    (handleCellClickVsC st i).board.length = 9 ∧
    (makeComputerMove r st).board.length = 9 ∧
    (resetGame st).board.length = 9 ∧
    (resetStats st).board.length = 9 ∧
    (st.board.get? j = some (some p) →
      (handleCellClick st i).board.get? j = some (some p)) ∧
    (st.board.get? j = some (some p) →
      (handleCellClickVsC st i).board.get? j = some (some p)) ∧
    (st.board.get? j = some (some p) →
      (makeComputerMove r st).board.get? j = some (some p)) ∧
    (resetStats st).board = st.board := by
  have hset : ∀ (q : Player) (k : Nat), k < 9 → st.board.get? k = some none →
      st.board.get? j = some (some p) →
      (st.board.set k (some q)).get? j = some (some p) := by
    intro q k hk9 hkget hjget
    by_cases hjk : j = k
    · rw [hjk, hkget] at hjget
      cases hjget
    · rw [get?_set_other st.board k j hjk]
      exact hjget
  have hclick : (handleCellClick st i).board.length = 9 ∧
      (st.board.get? j = some (some p) →
        (handleCellClick st i).board.get? j = some (some p)) := by
    rw [handleCellClick]
    by_cases hrej : (st.board.getD i none).isSome = true ∨ st.gameState ≠ .playing
    · rw [if_pos hrej]
      exact ⟨h9, fun h => h⟩
    · rw [if_neg hrej]
      rw [not_or] at hrej
      have hempty : st.board.get? i = some none := by
        have hmt : st.board.getD i none = none :=
          Option.not_isSome_iff_eq_none.mp (fun hcon => hrej.1 hcon)
        rw [List.getD_eq_get?, List.get?_eq_get (by omega)] at hmt
        rw [List.get?_eq_get (show i < st.board.length by omega)]
        rw [Option.getD_some] at hmt
        rw [hmt]
      rw [resolveMove_board, jsWrite, if_pos (by omega)]
      refine ⟨by rw [List.length_set]; exact h9, hset st.currentPlayer i hi hempty⟩
  have hclickv : (handleCellClickVsC st i).board.length = 9 ∧
      (st.board.get? j = some (some p) →
        (handleCellClickVsC st i).board.get? j = some (some p)) := by
    rw [handleCellClickVsC]
    by_cases hrej : (st.board.getD i none).isSome = true ∨ st.gameState ≠ .playing ∨
        st.currentPlayer ≠ .X
    · rw [if_pos hrej]
      exact ⟨h9, fun h => h⟩
    · rw [if_neg hrej]
      rw [not_or] at hrej
      have hempty : st.board.get? i = some none := by
        have hmt : st.board.getD i none = none :=
          Option.not_isSome_iff_eq_none.mp (fun hcon => hrej.1 hcon)
        rw [List.getD_eq_get?, List.get?_eq_get (by omega)] at hmt
        rw [List.get?_eq_get (show i < st.board.length by omega)]
        rw [Option.getD_some] at hmt
        rw [hmt]
      rw [resolveMove_board, jsWrite, if_pos (by omega)]
      exact ⟨by rw [List.length_set]; exact h9, hset .X i hi hempty⟩
  have hcomp : (makeComputerMove r st).board.length = 9 ∧
      (st.board.get? j = some (some p) →
        (makeComputerMove r st).board.get? j = some (some p)) := by
    by_cases hne : getEmptyCells st.board = []
    · rw [makeComputerMove, if_pos (by rw [hne]; rfl)]
      exact ⟨h9, fun h => h⟩
    · obtain ⟨k, hk9, hkget, heq⟩ := makeComputerMove_board h9 hne
      rw [heq, resolveMove_board]
      exact ⟨by rw [List.length_set]; exact h9, hset .O k hk9 hkget⟩
  exact ⟨hclick.1, hclickv.1, hcomp.1, by rw [resetGame]; rfl, h9,
    hclick.2, hclickv.2, hcomp.2, rfl⟩

/-- Witness for C5 at a mid-game session. -/
theorem claim_C5_witness :
    (handleCellClick sessionW 2).board.length = 9 ∧
    (handleCellClickVsC sessionW 2).board.length = 9 ∧
    (makeComputerMove 0 sessionW).board.length = 9 ∧
    (resetGame sessionW).board.length = 9 ∧
    (resetStats sessionW).board.length = 9 ∧
    (sessionW.board.get? 0 = some (some .X) →
      (handleCellClick sessionW 2).board.get? 0 = some (some .X)) ∧
    (sessionW.board.get? 0 = some (some .X) →
      (handleCellClickVsC sessionW 2).board.get? 0 = some (some .X)) ∧
    (sessionW.board.get? 0 = some (some .X) →
      (makeComputerMove 0 sessionW).board.get? 0 = some (some .X)) ∧
    (resetStats sessionW).board = sessionW.board :=
  claim_C5 sessionW 2 0 0 .X (by decide) (by decide)

/-- Counterexample to C5 as stated over every move index: the human move is
one of the session's operations, and at the out-of-range index 9 it does not
preserve the 9-cell board — the guard reads a falsy `undefined`, the write
extends the array, and the committed board has 10 cells. -/
theorem claim_C5_counterexample :
    initSession.board.length = 9 ∧
    (handleCellClick initSession 9).board.length = 10 := by
  exact ⟨by decide, by decide⟩

/-! ## Characterizing the winner scan -/

lemma lineWinner_eq_some_iff {b : Board} {combo : Nat × Nat × Nat} {p : Player} :
    lineWinner b combo = some p ↔ lineFilledWith b combo p := by
  unfold lineWinner lineFilledWith
  cases hc : b.getD combo.1 none with
  | none =>
    dsimp only
    constructor
    · intro h; cases h
    · rintro ⟨h1, -, -⟩
      cases h1
  | some q =>
    dsimp only
    by_cases hcond : b.getD combo.2.1 none = some q ∧ b.getD combo.2.2 none = some q
    · rw [if_pos hcond]
      constructor
      · intro h
        cases h
        exact ⟨rfl, hcond.1, hcond.2⟩
      · rintro ⟨h1, -, -⟩
        cases h1
        rfl
    · rw [if_neg hcond]
      constructor
      · intro h; cases h
      · rintro ⟨h1, h2, h3⟩
        cases h1
        exact absurd ⟨h2, h3⟩ hcond

lemma lineWinner_eq_none_iff {b : Board} {combo : Nat × Nat × Nat} :
    lineWinner b combo = none ↔ ¬∃ q, lineFilledWith b combo q := by
  constructor
  · rintro h ⟨q, hq⟩
    rw [lineWinner_eq_some_iff.mpr hq] at h
    cases h
  · intro h
    cases hl : lineWinner b combo with
    | none => rfl
    | some q => exact absurd ⟨q, lineWinner_eq_some_iff.mp hl⟩ h

/-- C6: `checkWinner` scans the 8 fixed combinations — 3 rows, then 3
columns, then 2 diagonals — and returns the mark of the first one (in that
fixed order) whose three cells hold the same mark, `none` when there is no
such combination.  It is a total function, so it cannot crash even when
several combinations are simultaneously complete. -/
theorem claim_C6 (b : Board) :
    winningCombinations = [(0, 1, 2), (3, 4, 5), (6, 7, 8),
      (0, 3, 6), (1, 4, 7), (2, 5, 8), (0, 4, 8), (2, 4, 6)] ∧
    (∀ p, checkWinner b = some p ↔
      ∃ pre combo post, winningCombinations = pre ++ combo :: post ∧
        lineFilledWith b combo p ∧ ∀ c2 ∈ pre, ¬∃ q, lineFilledWith b c2 q) ∧
    (checkWinner b = none ↔
      ∀ combo ∈ winningCombinations, ¬∃ q, lineFilledWith b combo q) := by
  refine ⟨rfl, ?_, ?_⟩
  · intro p
    rw [checkWinner, List.findSome?_eq_some_iff]
    constructor
    · rintro ⟨pre, combo, post, hsplit, hfa, hpre⟩
      exact ⟨pre, combo, post, hsplit, lineWinner_eq_some_iff.mp hfa,
        fun c2 hc2 => lineWinner_eq_none_iff.mp (hpre c2 hc2)⟩
    · rintro ⟨pre, combo, post, hsplit, hfa, hpre⟩
      exact ⟨pre, combo, post, hsplit, lineWinner_eq_some_iff.mpr hfa,
        fun c2 hc2 => lineWinner_eq_none_iff.mpr (hpre c2 hc2)⟩
  · rw [checkWinner, List.findSome?_eq_none_iff]
    constructor
    · intro h combo hcombo
      exact lineWinner_eq_none_iff.mp (h combo hcombo)
    · intro h combo hcombo
      exact lineWinner_eq_none_iff.mpr (h combo hcombo)

/-! ## Mark-relabelling symmetry of the search -/

lemma otherPlayer_invol (p : Player) : otherPlayer (otherPlayer p) = p := by
  cases p <;> rfl

lemma get?_swapBoard (b : Board) (i : Nat) :
    (swapBoard b).get? i = (b.get? i).map (Option.map otherPlayer) := by
  rw [swapBoard, List.get?_map]

lemma getD_swapBoard (b : Board) (i : Nat) :
    (swapBoard b).getD i none = Option.map otherPlayer (b.getD i none) := by
  rw [List.getD_eq_get?, List.getD_eq_get?, get?_swapBoard]
  cases b.get? i with
  | none => rfl
  | some c => rfl

lemma swap_empty_iff (b : Board) (i : Nat) :
    ((swapBoard b).get? i = some none) ↔ (b.get? i = some none) := by
  rw [get?_swapBoard]
  cases hc : b.get? i with
  | none => simp
  | some c => cases c <;> simp

lemma lineWinner_swapBoard (b : Board) (combo : Nat × Nat × Nat) :
    lineWinner (swapBoard b) combo = (lineWinner b combo).map otherPlayer := by
  unfold lineWinner
  rw [getD_swapBoard]
  cases hc : b.getD combo.1 none with
  | none => rfl
  | some p =>
    dsimp only [Option.map_some']
    have hcell : ∀ j : Nat, ((swapBoard b).getD j none = some (otherPlayer p)) ↔
        (b.getD j none = some p) := by
      intro j
      rw [getD_swapBoard]
      cases hcj : b.getD j none with
      | none => simp
      | some q =>
        simp only [Option.map_some', Option.some.injEq]
        constructor
        · intro h
          rw [← otherPlayer_invol q, h, otherPlayer_invol]
        · intro h; rw [h]
    by_cases hcond : b.getD combo.2.1 none = some p ∧ b.getD combo.2.2 none = some p
    · rw [if_pos hcond, if_pos ⟨(hcell combo.2.1).mpr hcond.1, (hcell combo.2.2).mpr hcond.2⟩]
      rfl
    · rw [if_neg hcond, if_neg (fun hcon =>
        hcond ⟨(hcell combo.2.1).mp hcon.1, (hcell combo.2.2).mp hcon.2⟩)]
      rfl

lemma findSome?_map_option {α β γ : Type _} (f : α → Option β) (g : β → γ) :
    ∀ l : List α, l.findSome? (fun a => (f a).map g) = (l.findSome? f).map g := by
  intro l
  induction l with
  | nil => rfl
  | cons a t ih =>
    rw [List.findSome?_cons, List.findSome?_cons]
    cases f a with
    | some v => rfl
    | none => exact ih

lemma checkWinner_swapBoard (b : Board) :
    checkWinner (swapBoard b) = (checkWinner b).map otherPlayer := by
  rw [checkWinner, checkWinner,
    findSome?_congr (lineWinner (swapBoard b))
      (fun combo => (lineWinner b combo).map otherPlayer) winningCombinations
      (fun combo _ => lineWinner_swapBoard b combo),
    findSome?_map_option]

lemma isBoardFull_swapBoard (b : Board) :
    isBoardFull (swapBoard b) = isBoardFull b := by
  rw [isBoardFull, isBoardFull, swapBoard, List.all_map]
  congr 1
  funext c
  cases c <;> rfl

lemma swapBoard_set (b : Board) (i : Nat) (p : Player) :
    swapBoard (b.set i (some p)) = (swapBoard b).set i (some (otherPlayer p)) := by
  rw [swapBoard, swapBoard, List.map_set]
  rfl

lemma countEmpty_swapBoard (b : Board) : countEmpty (swapBoard b) = countEmpty b := by
  rw [countEmpty, countEmpty, emptyIdx, emptyIdx]
  congr 1
  apply List.filter_congr
  intro i _
  rw [decide_eq_decide]
  exact swap_empty_iff b i

lemma jneg_jmax (a b : JNum) : jneg (jmax a b) = jmin (jneg a) (jneg b) := by
  cases a <;> cases b <;> simp only [jmax, jmin, jneg]
  rw [← min_neg_neg]

lemma jneg_jmin (a b : JNum) : jneg (jmin a b) = jmax (jneg a) (jneg b) := by
  cases a <;> cases b <;> simp only [jmax, jmin, jneg]
  rw [← max_neg_neg]

lemma jneg_foldl_min (f g : Nat → JNum) (P Q : Nat → Prop) [DecidablePred P]
    [DecidablePred Q] (hPQ : ∀ i, P i ↔ Q i) (hfg : ∀ i, Q i → jneg (f i) = g i) :
    ∀ (l : List Nat) (acc : JNum),
      jneg (l.foldl (fun best i => if P i then jmin (f i) best else best) acc) =
        l.foldl (fun best i => if Q i then jmax (g i) best else best) (jneg acc) := by
  intro l
  induction l with
  | nil => intro acc; rfl
  | cons a t ih =>
    intro acc
    rw [List.foldl_cons, List.foldl_cons]
    by_cases hQ : Q a
    · rw [if_pos ((hPQ a).mpr hQ), if_pos hQ, ih, jneg_jmin, hfg a hQ]
    · rw [if_neg (fun hcon => hQ ((hPQ a).mp hcon)), if_neg hQ, ih]

lemma jneg_foldl_max (f g : Nat → JNum) (P Q : Nat → Prop) [DecidablePred P]
    [DecidablePred Q] (hPQ : ∀ i, P i ↔ Q i) (hfg : ∀ i, Q i → jneg (f i) = g i) :
    ∀ (l : List Nat) (acc : JNum),
      jneg (l.foldl (fun best i => if P i then jmax (f i) best else best) acc) =
        l.foldl (fun best i => if Q i then jmin (g i) best else best) (jneg acc) := by
  intro l
  induction l with
  | nil => intro acc; rfl
  | cons a t ih =>
    intro acc
    rw [List.foldl_cons, List.foldl_cons]
    by_cases hQ : Q a
    · rw [if_pos ((hPQ a).mpr hQ), if_pos hQ, ih, jneg_jmax, hfg a hQ]
    · rw [if_neg (fun hcon => hQ ((hPQ a).mp hcon)), if_neg hQ, ih]

lemma minimaxF_swap : ∀ (fuel : Nat) (b : Board) (depth : Nat) (m : Bool),
    jneg (minimaxF fuel (swapBoard b) depth (!m)) = minimaxF fuel b depth m := by
  have hterm : ∀ (b : Board) (depth : Nat) (p : Player), checkWinner b = some p →
      ∀ fuel m, jneg (minimaxF fuel (swapBoard b) depth (!m)) =
        minimaxF fuel b depth m := by
    intro b depth p hw fuel m
    have hws : checkWinner (swapBoard b) = some (otherPlayer p) := by
      rw [checkWinner_swapBoard, hw]
      rfl
    cases p
    · rw [minimaxF_winner_X hw]
      rw [show otherPlayer Player.X = Player.O from rfl] at hws
      rw [minimaxF_winner_O hws]
      show JNum.int (-(10 - (depth : Int))) = JNum.int ((depth : Int) - 10)
      congr 1
      omega
    · rw [minimaxF_winner_O hw]
      rw [show otherPlayer Player.O = Player.X from rfl] at hws
      rw [minimaxF_winner_X hws]
      show JNum.int (-((depth : Int) - 10)) = JNum.int (10 - (depth : Int))
      congr 1
      omega
  intro fuel
  induction fuel with
  | zero =>
    intro b depth m
    cases hw : checkWinner b with
    | some p => exact hterm b depth p hw 0 m
    | none =>
      have hws : checkWinner (swapBoard b) = none := by
        rw [checkWinner_swapBoard, hw]
        rfl
      rw [minimaxF_zero, minimaxF_zero, hw, hws]
      dsimp only
      rw [ite_self, ite_self]
      rfl
  | succ f ih =>
    intro b depth m
    cases hw : checkWinner b with
    | some p => exact hterm b depth p hw (f + 1) m
    | none =>
      have hws : checkWinner (swapBoard b) = none := by
        rw [checkWinner_swapBoard, hw]
        rfl
      cases hful : isBoardFull b with
      | true =>
        rw [minimaxF_full hw hful, minimaxF_full hws (by rw [isBoardFull_swapBoard, hful])]
        rfl
      | false =>
        rw [minimaxF_succ, minimaxF_succ, hw, hws]
        dsimp only
        rw [hful, isBoardFull_swapBoard, hful]
        simp only [Bool.false_eq_true, if_false]
        cases m with
        | true =>
          rw [Bool.not_true, if_neg (by simp), if_pos rfl]
          have := jneg_foldl_min
            (fun i => minimaxF f ((swapBoard b).set i (some .X)) (depth + 1) true)
            (fun i => minimaxF f (b.set i (some .O)) (depth + 1) false)
            (fun i => (swapBoard b).get? i = some none)
            (fun i => b.get? i = some none)
            (swap_empty_iff b)
            (fun i _ => by
              dsimp only
              rw [show ((swapBoard b).set i (some Player.X)) =
                  swapBoard (b.set i (some Player.O)) from by
                rw [swapBoard_set]
                rfl]
              have h2 := ih (b.set i (some .O)) (depth + 1) false
              rw [Bool.not_false] at h2
              exact h2)
            (List.range 9) JNum.posInf
          rw [this]
          rfl
        | false =>
          rw [Bool.not_false, if_pos rfl, if_neg (by simp)]
          have := jneg_foldl_max
            (fun i => minimaxF f ((swapBoard b).set i (some .O)) (depth + 1) false)
            (fun i => minimaxF f (b.set i (some .X)) (depth + 1) true)
            (fun i => (swapBoard b).get? i = some none)
            (fun i => b.get? i = some none)
            (swap_empty_iff b)
            (fun i _ => by
              dsimp only
              rw [show ((swapBoard b).set i (some Player.O)) =
                  swapBoard (b.set i (some Player.X)) from by
                rw [swapBoard_set]
                rfl]
              have h2 := ih (b.set i (some .X)) (depth + 1) true
              rw [Bool.not_true] at h2
              exact h2)
            (List.range 9) JNum.negInf
          rw [this]
          rfl

/-- C7: relabelling every mark on the board with the other mark, swapping
the maximizing and minimizing role, and negating the resulting score,
reproduces the original minimax score. -/
theorem claim_C7 (b : Board) (depth : Nat) (m : Bool) :
    jneg (minimax (swapBoard b) depth (!m)) = minimax b depth m := by
  rw [minimax, minimax, countEmpty_swapBoard]
  exact minimaxF_swap (countEmpty b) b depth m


/-! ## The forced-win scenario -/

set_option maxHeartbeats 1000000 in
/-- C8: on the board `[A,A,_, B,B,_, _,_,_]` with the automated mark `A='O'`
at 0 and 1, the automated move selects index 2, and the committed move
reports a win for the automated player (the random fallback is irrelevant:
the result is the same for every draw `r`). -/
theorem claim_C8 (r : Nat) :
    getBestMove boardC8 = 2 ∧
    (makeComputerMove r sessionC8).board =
      [some .O, some .O, some .O, some .X, some .X, none, none, none, none] ∧
    (makeComputerMove r sessionC8).gameState = .won ∧
    (makeComputerMove r sessionC8).winner = some .O ∧
    (makeComputerMove r sessionC8).stats.oWins = sessionC8.stats.oWins + 1 := by
  have hbm : getBestMove boardC8 = 2 := by decide!
  refine ⟨hbm, ?_⟩
  have hb : sessionC8.board = boardC8 := rfl
  have hmc : makeComputerMove r sessionC8 =
      resolveMove sessionC8 (jsWriteI boardC8 2 (some .O)) .X := by
    simp only [makeComputerMove]
    rw [hb, hbm]
    rw [if_neg (by decide), if_neg (by decide)]
  rw [hmc]
  refine ⟨by decide, by decide, by decide, by decide⟩


/-! ## Optimal self-play ends in a draw -/

lemma jgeInt_mono {a : JNum} {c d : Int} (h : jgeInt a c) (hdc : d ≤ c) :
    jgeInt a d := by
  cases a <;> simp_all [jgeInt] <;> omega

lemma jleInt_mono {a : JNum} {c d : Int} (h : jleInt a c) (hcd : c ≤ d) :
    jleInt a d := by
  cases a <;> simp_all [jleInt] <;> omega

lemma makeComputerMove_step {st : Session} {k : Nat}
    (hsel : getBestMove st.board = (k : Int))
    (hne : ¬(getEmptyCells st.board).length = 0) :
    makeComputerMove 0 st = resolveMove st (jsWriteI st.board (k : Int) (some .O)) .X := by
  simp only [makeComputerMove]
  rw [hsel, if_neg hne, if_neg (by omega)]


attribute [irreducible] jleInt jgeInt

/-! Mask-level bound certificates for each ply of the optimal line,
each checked by kernel reduction in its own declaration. -/

set_option maxRecDepth 1000000 in
lemma spLe_1_0 :
    leB (countEmpty ((spSession 0).board.set 0 (some .X))) 1 0 0 true 0 = true := by
  decide!

set_option maxRecDepth 1000000 in
lemma spGe_1_0 :
    geB (countEmpty ((spSession 0).board.set 0 (some .X))) 1 0 0 true 0 = true := by
  decide!

set_option maxRecDepth 1000000 in
lemma spGe_2_0 :
    geB (countEmpty ((spSession 0).board.set 1 (some .X))) 2 0 0 true 0 = true := by
  decide!

set_option maxRecDepth 1000000 in
lemma spGe_4_0 :
    geB (countEmpty ((spSession 0).board.set 2 (some .X))) 4 0 0 true 0 = true := by
  decide!

set_option maxRecDepth 1000000 in
lemma spGe_8_0 :
    geB (countEmpty ((spSession 0).board.set 3 (some .X))) 8 0 0 true 0 = true := by
  decide!

set_option maxRecDepth 1000000 in
lemma spGe_16_0 :
    geB (countEmpty ((spSession 0).board.set 4 (some .X))) 16 0 0 true 0 = true := by
  decide!

set_option maxRecDepth 1000000 in
lemma spGe_32_0 :
    geB (countEmpty ((spSession 0).board.set 5 (some .X))) 32 0 0 true 0 = true := by
  decide!

set_option maxRecDepth 1000000 in
lemma spGe_64_0 :
    geB (countEmpty ((spSession 0).board.set 6 (some .X))) 64 0 0 true 0 = true := by
  decide!

set_option maxRecDepth 1000000 in
lemma spGe_128_0 :
    geB (countEmpty ((spSession 0).board.set 7 (some .X))) 128 0 0 true 0 = true := by
  decide!

set_option maxRecDepth 1000000 in
lemma spGe_256_0 :
    geB (countEmpty ((spSession 0).board.set 8 (some .X))) 256 0 0 true 0 = true := by
  decide!

set_option maxRecDepth 1000000 in
lemma spLe_1_16 :
    leB (countEmpty ((spSession 1).board.set 4 (some .O))) 1 16 0 false 0 = true := by
  decide!

set_option maxRecDepth 1000000 in
lemma spGe_1_16 :
    geB (countEmpty ((spSession 1).board.set 4 (some .O))) 1 16 0 false 0 = true := by
  decide!

set_option maxRecDepth 1000000 in
lemma spLe_1_2 :
    leB (countEmpty ((spSession 1).board.set 1 (some .O))) 1 2 0 false (-1) = true := by
  decide!

set_option maxRecDepth 1000000 in
lemma spLe_1_4 :
    leB (countEmpty ((spSession 1).board.set 2 (some .O))) 1 4 0 false (-1) = true := by
  decide!

set_option maxRecDepth 1000000 in
lemma spLe_1_8 :
    leB (countEmpty ((spSession 1).board.set 3 (some .O))) 1 8 0 false (-1) = true := by
  decide!

set_option maxRecDepth 1000000 in
lemma spLe_1_32 :
    leB (countEmpty ((spSession 1).board.set 5 (some .O))) 1 32 0 false 0 = true := by
  decide!

set_option maxRecDepth 1000000 in
lemma spLe_1_64 :
    leB (countEmpty ((spSession 1).board.set 6 (some .O))) 1 64 0 false 0 = true := by
  decide!

set_option maxRecDepth 1000000 in
lemma spLe_1_128 :
    leB (countEmpty ((spSession 1).board.set 7 (some .O))) 1 128 0 false 0 = true := by
  decide!

set_option maxRecDepth 1000000 in
lemma spLe_1_256 :
    leB (countEmpty ((spSession 1).board.set 8 (some .O))) 1 256 0 false 0 = true := by
  decide!

set_option maxRecDepth 1000000 in
lemma spLe_3_16 :
    leB (countEmpty ((spSession 2).board.set 1 (some .X))) 3 16 0 true 0 = true := by
  decide!

set_option maxRecDepth 1000000 in
lemma spGe_3_16 :
    geB (countEmpty ((spSession 2).board.set 1 (some .X))) 3 16 0 true 0 = true := by
  decide!

set_option maxRecDepth 1000000 in
lemma spGe_5_16 :
    geB (countEmpty ((spSession 2).board.set 2 (some .X))) 5 16 0 true 0 = true := by
  decide!

set_option maxRecDepth 1000000 in
lemma spGe_9_16 :
    geB (countEmpty ((spSession 2).board.set 3 (some .X))) 9 16 0 true 0 = true := by
  decide!

set_option maxRecDepth 1000000 in
lemma spGe_33_16 :
    geB (countEmpty ((spSession 2).board.set 5 (some .X))) 33 16 0 true 0 = true := by
  decide!

set_option maxRecDepth 1000000 in
lemma spGe_65_16 :
    geB (countEmpty ((spSession 2).board.set 6 (some .X))) 65 16 0 true 0 = true := by
  decide!

set_option maxRecDepth 1000000 in
lemma spGe_129_16 :
    geB (countEmpty ((spSession 2).board.set 7 (some .X))) 129 16 0 true 0 = true := by
  decide!

set_option maxRecDepth 1000000 in
lemma spGe_257_16 :
    geB (countEmpty ((spSession 2).board.set 8 (some .X))) 257 16 0 true 0 = true := by
  decide!

set_option maxRecDepth 1000000 in
lemma spLe_3_20 :
    leB (countEmpty ((spSession 3).board.set 2 (some .O))) 3 20 0 false 0 = true := by
  decide!

set_option maxRecDepth 1000000 in
lemma spGe_3_20 :
    geB (countEmpty ((spSession 3).board.set 2 (some .O))) 3 20 0 false 0 = true := by
  decide!

set_option maxRecDepth 1000000 in
lemma spLe_3_24 :
    leB (countEmpty ((spSession 3).board.set 3 (some .O))) 3 24 0 false 0 = true := by
  decide!

set_option maxRecDepth 1000000 in
lemma spLe_3_48 :
    leB (countEmpty ((spSession 3).board.set 5 (some .O))) 3 48 0 false 0 = true := by
  decide!

set_option maxRecDepth 1000000 in
lemma spLe_3_80 :
    leB (countEmpty ((spSession 3).board.set 6 (some .O))) 3 80 0 false 0 = true := by
  decide!

set_option maxRecDepth 1000000 in
lemma spLe_3_144 :
    leB (countEmpty ((spSession 3).board.set 7 (some .O))) 3 144 0 false 0 = true := by
  decide!

set_option maxRecDepth 1000000 in
lemma spLe_3_272 :
    leB (countEmpty ((spSession 3).board.set 8 (some .O))) 3 272 0 false 0 = true := by
  decide!

set_option maxRecDepth 1000000 in
lemma spLe_67_20 :
    leB (countEmpty ((spSession 4).board.set 6 (some .X))) 67 20 0 true 0 = true := by
  decide!

set_option maxRecDepth 1000000 in
lemma spGe_67_20 :
    geB (countEmpty ((spSession 4).board.set 6 (some .X))) 67 20 0 true 0 = true := by
  decide!

set_option maxRecDepth 1000000 in
lemma spGe_11_20 :
    geB (countEmpty ((spSession 4).board.set 3 (some .X))) 11 20 0 true 1 = true := by
  decide!

set_option maxRecDepth 1000000 in
lemma spGe_35_20 :
    geB (countEmpty ((spSession 4).board.set 5 (some .X))) 35 20 0 true 1 = true := by
  decide!

set_option maxRecDepth 1000000 in
lemma spGe_131_20 :
    geB (countEmpty ((spSession 4).board.set 7 (some .X))) 131 20 0 true 0 = true := by
  decide!

set_option maxRecDepth 1000000 in
lemma spGe_259_20 :
    geB (countEmpty ((spSession 4).board.set 8 (some .X))) 259 20 0 true 0 = true := by
  decide!

set_option maxRecDepth 1000000 in
lemma spLe_67_28 :
    leB (countEmpty ((spSession 5).board.set 3 (some .O))) 67 28 0 false 0 = true := by
  decide!

set_option maxRecDepth 1000000 in
lemma spGe_67_28 :
    geB (countEmpty ((spSession 5).board.set 3 (some .O))) 67 28 0 false 0 = true := by
  decide!

set_option maxRecDepth 1000000 in
lemma spLe_67_52 :
    leB (countEmpty ((spSession 5).board.set 5 (some .O))) 67 52 0 false 0 = true := by
  decide!

set_option maxRecDepth 1000000 in
lemma spLe_67_148 :
    leB (countEmpty ((spSession 5).board.set 7 (some .O))) 67 148 0 false 0 = true := by
  decide!

set_option maxRecDepth 1000000 in
lemma spLe_67_276 :
    leB (countEmpty ((spSession 5).board.set 8 (some .O))) 67 276 0 false 0 = true := by
  decide!

set_option maxRecDepth 1000000 in
lemma spLe_99_28 :
    leB (countEmpty ((spSession 6).board.set 5 (some .X))) 99 28 0 true 0 = true := by
  decide!

set_option maxRecDepth 1000000 in
lemma spGe_99_28 :
    geB (countEmpty ((spSession 6).board.set 5 (some .X))) 99 28 0 true 0 = true := by
  decide!

set_option maxRecDepth 1000000 in
lemma spGe_195_28 :
    geB (countEmpty ((spSession 6).board.set 7 (some .X))) 195 28 0 true 0 = true := by
  decide!

set_option maxRecDepth 1000000 in
lemma spGe_323_28 :
    geB (countEmpty ((spSession 6).board.set 8 (some .X))) 323 28 0 true 0 = true := by
  decide!

set_option maxRecDepth 1000000 in
lemma spLe_99_156 :
    leB (countEmpty ((spSession 7).board.set 7 (some .O))) 99 156 0 false 0 = true := by
  decide!

set_option maxRecDepth 1000000 in
lemma spGe_99_156 :
    geB (countEmpty ((spSession 7).board.set 7 (some .O))) 99 156 0 false 0 = true := by
  decide!

set_option maxRecDepth 1000000 in
lemma spLe_99_284 :
    leB (countEmpty ((spSession 7).board.set 8 (some .O))) 99 284 0 false 0 = true := by
  decide!

set_option maxRecDepth 1000000 in
lemma spLe_355_156 :
    leB (countEmpty ((spSession 8).board.set 8 (some .X))) 355 156 0 true 0 = true := by
  decide!

set_option maxRecDepth 1000000 in
lemma spGe_355_156 :
    geB (countEmpty ((spSession 8).board.set 8 (some .X))) 355 156 0 true 0 = true := by
  decide!


set_option maxHeartbeats 1000000 in
lemma spSel0 : getBestMoveX (spSession 0).board = ((0 : Nat) : Int) := by
  have hv : minimax ((spSession 0).board.set 0 (some .X)) 0 true = .int 0 :=
    minimax_eq_of_certs (x := 1) (o := 0) (by decide) 0 true 0 spLe_1_0 spGe_1_0
  apply getBestMoveX_det (spSession 0).board (by decide) 0 0 (by decide) (by decide) hv
  · intro j hj hj9
    interval_cases j
    · rw [hv]; exact jgeInt_int (le_refl 0)
    · exact minimax_ge_of_cert (x := 2) (o := 0) (by decide) 0 true 0 spGe_2_0
    · exact minimax_ge_of_cert (x := 4) (o := 0) (by decide) 0 true 0 spGe_4_0
    · exact minimax_ge_of_cert (x := 8) (o := 0) (by decide) 0 true 0 spGe_8_0
    · exact minimax_ge_of_cert (x := 16) (o := 0) (by decide) 0 true 0 spGe_16_0
    · exact minimax_ge_of_cert (x := 32) (o := 0) (by decide) 0 true 0 spGe_32_0
    · exact minimax_ge_of_cert (x := 64) (o := 0) (by decide) 0 true 0 spGe_64_0
    · exact minimax_ge_of_cert (x := 128) (o := 0) (by decide) 0 true 0 spGe_128_0
    · exact minimax_ge_of_cert (x := 256) (o := 0) (by decide) 0 true 0 spGe_256_0
  · intro j hj hj9 hjk
    omega

lemma spStep0 : selfPlayStep (spSession 0) = spSession 1 := by
  rw [selfPlayStep, if_pos (show (spSession 0).gameState = .playing from rfl)]
  have hc : (spSession 0).currentPlayer = .X := rfl
  rw [hc, spSel0]
  decide

set_option maxHeartbeats 1000000 in
lemma spSel1 : getBestMove (spSession 1).board = ((4 : Nat) : Int) := by
  have hv : minimax ((spSession 1).board.set 4 (some .O)) 0 false = .int 0 :=
    minimax_eq_of_certs (x := 1) (o := 16) (by decide) 0 false 0 spLe_1_16 spGe_1_16
  apply getBestMove_det (spSession 1).board (by decide) 4 0 (by decide) (by decide) hv
  · intro j hj hj9
    interval_cases j
    · exact absurd hj (by decide)
    · exact jleInt_mono (minimax_le_of_cert (x := 1) (o := 2) (by decide) 0 false (-1) spLe_1_2) (by omega)
    · exact jleInt_mono (minimax_le_of_cert (x := 1) (o := 4) (by decide) 0 false (-1) spLe_1_4) (by omega)
    · exact jleInt_mono (minimax_le_of_cert (x := 1) (o := 8) (by decide) 0 false (-1) spLe_1_8) (by omega)
    · rw [hv]; exact jleInt_int (le_refl 0)
    · exact minimax_le_of_cert (x := 1) (o := 32) (by decide) 0 false 0 spLe_1_32
    · exact minimax_le_of_cert (x := 1) (o := 64) (by decide) 0 false 0 spLe_1_64
    · exact minimax_le_of_cert (x := 1) (o := 128) (by decide) 0 false 0 spLe_1_128
    · exact minimax_le_of_cert (x := 1) (o := 256) (by decide) 0 false 0 spLe_1_256
  · intro j hj hj9 hjk
    interval_cases j
    · exact absurd hj (by decide)
    · exact minimax_le_of_cert (x := 1) (o := 2) (by decide) 0 false (-1) spLe_1_2
    · exact minimax_le_of_cert (x := 1) (o := 4) (by decide) 0 false (-1) spLe_1_4
    · exact minimax_le_of_cert (x := 1) (o := 8) (by decide) 0 false (-1) spLe_1_8

lemma spStep1 : selfPlayStep (spSession 1) = spSession 2 := by
  rw [selfPlayStep, if_pos (show (spSession 1).gameState = .playing from rfl)]
  have hc : (spSession 1).currentPlayer = .O := rfl
  rw [hc]
  show makeComputerMove 0 (spSession 1) = spSession 2
  rw [makeComputerMove_step spSel1 (by decide)]
  decide

set_option maxHeartbeats 1000000 in
lemma spSel2 : getBestMoveX (spSession 2).board = ((1 : Nat) : Int) := by
  have hv : minimax ((spSession 2).board.set 1 (some .X)) 0 true = .int 0 :=
    minimax_eq_of_certs (x := 3) (o := 16) (by decide) 0 true 0 spLe_3_16 spGe_3_16
  apply getBestMoveX_det (spSession 2).board (by decide) 1 0 (by decide) (by decide) hv
  · intro j hj hj9
    interval_cases j
    · exact absurd hj (by decide)
    · rw [hv]; exact jgeInt_int (le_refl 0)
    · exact minimax_ge_of_cert (x := 5) (o := 16) (by decide) 0 true 0 spGe_5_16
    · exact minimax_ge_of_cert (x := 9) (o := 16) (by decide) 0 true 0 spGe_9_16
    · exact absurd hj (by decide)
    · exact minimax_ge_of_cert (x := 33) (o := 16) (by decide) 0 true 0 spGe_33_16
    · exact minimax_ge_of_cert (x := 65) (o := 16) (by decide) 0 true 0 spGe_65_16
    · exact minimax_ge_of_cert (x := 129) (o := 16) (by decide) 0 true 0 spGe_129_16
    · exact minimax_ge_of_cert (x := 257) (o := 16) (by decide) 0 true 0 spGe_257_16
  · intro j hj hj9 hjk
    interval_cases j
    · exact absurd hj (by decide)

lemma spStep2 : selfPlayStep (spSession 2) = spSession 3 := by
  rw [selfPlayStep, if_pos (show (spSession 2).gameState = .playing from rfl)]
  have hc : (spSession 2).currentPlayer = .X := rfl
  rw [hc, spSel2]
  decide

set_option maxHeartbeats 1000000 in
lemma spSel3 : getBestMove (spSession 3).board = ((2 : Nat) : Int) := by
  have hv : minimax ((spSession 3).board.set 2 (some .O)) 0 false = .int 0 :=
    minimax_eq_of_certs (x := 3) (o := 20) (by decide) 0 false 0 spLe_3_20 spGe_3_20
  apply getBestMove_det (spSession 3).board (by decide) 2 0 (by decide) (by decide) hv
  · intro j hj hj9
    interval_cases j
    · exact absurd hj (by decide)
    · exact absurd hj (by decide)
    · rw [hv]; exact jleInt_int (le_refl 0)
    · exact minimax_le_of_cert (x := 3) (o := 24) (by decide) 0 false 0 spLe_3_24
    · exact absurd hj (by decide)
    · exact minimax_le_of_cert (x := 3) (o := 48) (by decide) 0 false 0 spLe_3_48
    · exact minimax_le_of_cert (x := 3) (o := 80) (by decide) 0 false 0 spLe_3_80
    · exact minimax_le_of_cert (x := 3) (o := 144) (by decide) 0 false 0 spLe_3_144
    · exact minimax_le_of_cert (x := 3) (o := 272) (by decide) 0 false 0 spLe_3_272
  · intro j hj hj9 hjk
    interval_cases j
    · exact absurd hj (by decide)
    · exact absurd hj (by decide)

lemma spStep3 : selfPlayStep (spSession 3) = spSession 4 := by
  rw [selfPlayStep, if_pos (show (spSession 3).gameState = .playing from rfl)]
  have hc : (spSession 3).currentPlayer = .O := rfl
  rw [hc]
  show makeComputerMove 0 (spSession 3) = spSession 4
  rw [makeComputerMove_step spSel3 (by decide)]
  decide

set_option maxHeartbeats 1000000 in
lemma spSel4 : getBestMoveX (spSession 4).board = ((6 : Nat) : Int) := by
  have hv : minimax ((spSession 4).board.set 6 (some .X)) 0 true = .int 0 :=
    minimax_eq_of_certs (x := 67) (o := 20) (by decide) 0 true 0 spLe_67_20 spGe_67_20
  apply getBestMoveX_det (spSession 4).board (by decide) 6 0 (by decide) (by decide) hv
  · intro j hj hj9
    interval_cases j
    · exact absurd hj (by decide)
    · exact absurd hj (by decide)
    · exact absurd hj (by decide)
    · exact jgeInt_mono (minimax_ge_of_cert (x := 11) (o := 20) (by decide) 0 true 1 spGe_11_20) (by omega)
    · exact absurd hj (by decide)
    · exact jgeInt_mono (minimax_ge_of_cert (x := 35) (o := 20) (by decide) 0 true 1 spGe_35_20) (by omega)
    · rw [hv]; exact jgeInt_int (le_refl 0)
    · exact minimax_ge_of_cert (x := 131) (o := 20) (by decide) 0 true 0 spGe_131_20
    · exact minimax_ge_of_cert (x := 259) (o := 20) (by decide) 0 true 0 spGe_259_20
  · intro j hj hj9 hjk
    interval_cases j
    · exact absurd hj (by decide)
    · exact absurd hj (by decide)
    · exact absurd hj (by decide)
    · exact minimax_ge_of_cert (x := 11) (o := 20) (by decide) 0 true 1 spGe_11_20
    · exact absurd hj (by decide)
    · exact minimax_ge_of_cert (x := 35) (o := 20) (by decide) 0 true 1 spGe_35_20

lemma spStep4 : selfPlayStep (spSession 4) = spSession 5 := by
  rw [selfPlayStep, if_pos (show (spSession 4).gameState = .playing from rfl)]
  have hc : (spSession 4).currentPlayer = .X := rfl
  rw [hc, spSel4]
  decide

set_option maxHeartbeats 1000000 in
lemma spSel5 : getBestMove (spSession 5).board = ((3 : Nat) : Int) := by
  have hv : minimax ((spSession 5).board.set 3 (some .O)) 0 false = .int 0 :=
    minimax_eq_of_certs (x := 67) (o := 28) (by decide) 0 false 0 spLe_67_28 spGe_67_28
  apply getBestMove_det (spSession 5).board (by decide) 3 0 (by decide) (by decide) hv
  · intro j hj hj9
    interval_cases j
    · exact absurd hj (by decide)
    · exact absurd hj (by decide)
    · exact absurd hj (by decide)
    · rw [hv]; exact jleInt_int (le_refl 0)
    · exact absurd hj (by decide)
    · exact minimax_le_of_cert (x := 67) (o := 52) (by decide) 0 false 0 spLe_67_52
    · exact absurd hj (by decide)
    · exact minimax_le_of_cert (x := 67) (o := 148) (by decide) 0 false 0 spLe_67_148
    · exact minimax_le_of_cert (x := 67) (o := 276) (by decide) 0 false 0 spLe_67_276
  · intro j hj hj9 hjk
    interval_cases j
    · exact absurd hj (by decide)
    · exact absurd hj (by decide)
    · exact absurd hj (by decide)

lemma spStep5 : selfPlayStep (spSession 5) = spSession 6 := by
  rw [selfPlayStep, if_pos (show (spSession 5).gameState = .playing from rfl)]
  have hc : (spSession 5).currentPlayer = .O := rfl
  rw [hc]
  show makeComputerMove 0 (spSession 5) = spSession 6
  rw [makeComputerMove_step spSel5 (by decide)]
  decide

set_option maxHeartbeats 1000000 in
lemma spSel6 : getBestMoveX (spSession 6).board = ((5 : Nat) : Int) := by
  have hv : minimax ((spSession 6).board.set 5 (some .X)) 0 true = .int 0 :=
    minimax_eq_of_certs (x := 99) (o := 28) (by decide) 0 true 0 spLe_99_28 spGe_99_28
  apply getBestMoveX_det (spSession 6).board (by decide) 5 0 (by decide) (by decide) hv
  · intro j hj hj9
    interval_cases j
    · exact absurd hj (by decide)
    · exact absurd hj (by decide)
    · exact absurd hj (by decide)
    · exact absurd hj (by decide)
    · exact absurd hj (by decide)
    · rw [hv]; exact jgeInt_int (le_refl 0)
    · exact absurd hj (by decide)
    · exact minimax_ge_of_cert (x := 195) (o := 28) (by decide) 0 true 0 spGe_195_28
    · exact minimax_ge_of_cert (x := 323) (o := 28) (by decide) 0 true 0 spGe_323_28
  · intro j hj hj9 hjk
    interval_cases j
    · exact absurd hj (by decide)
    · exact absurd hj (by decide)
    · exact absurd hj (by decide)
    · exact absurd hj (by decide)
    · exact absurd hj (by decide)

lemma spStep6 : selfPlayStep (spSession 6) = spSession 7 := by
  rw [selfPlayStep, if_pos (show (spSession 6).gameState = .playing from rfl)]
  have hc : (spSession 6).currentPlayer = .X := rfl
  rw [hc, spSel6]
  decide

set_option maxHeartbeats 1000000 in
lemma spSel7 : getBestMove (spSession 7).board = ((7 : Nat) : Int) := by
  have hv : minimax ((spSession 7).board.set 7 (some .O)) 0 false = .int 0 :=
    minimax_eq_of_certs (x := 99) (o := 156) (by decide) 0 false 0 spLe_99_156 spGe_99_156
  apply getBestMove_det (spSession 7).board (by decide) 7 0 (by decide) (by decide) hv
  · intro j hj hj9
    interval_cases j
    · exact absurd hj (by decide)
    · exact absurd hj (by decide)
    · exact absurd hj (by decide)
    · exact absurd hj (by decide)
    · exact absurd hj (by decide)
    · exact absurd hj (by decide)
    · exact absurd hj (by decide)
    · rw [hv]; exact jleInt_int (le_refl 0)
    · exact minimax_le_of_cert (x := 99) (o := 284) (by decide) 0 false 0 spLe_99_284
  · intro j hj hj9 hjk
    interval_cases j
    · exact absurd hj (by decide)
    · exact absurd hj (by decide)
    · exact absurd hj (by decide)
    · exact absurd hj (by decide)
    · exact absurd hj (by decide)
    · exact absurd hj (by decide)
    · exact absurd hj (by decide)

lemma spStep7 : selfPlayStep (spSession 7) = spSession 8 := by
  rw [selfPlayStep, if_pos (show (spSession 7).gameState = .playing from rfl)]
  have hc : (spSession 7).currentPlayer = .O := rfl
  rw [hc]
  show makeComputerMove 0 (spSession 7) = spSession 8
  rw [makeComputerMove_step spSel7 (by decide)]
  decide

set_option maxHeartbeats 1000000 in
lemma spSel8 : getBestMoveX (spSession 8).board = ((8 : Nat) : Int) := by
  have hv : minimax ((spSession 8).board.set 8 (some .X)) 0 true = .int 0 :=
    minimax_eq_of_certs (x := 355) (o := 156) (by decide) 0 true 0 spLe_355_156 spGe_355_156
  apply getBestMoveX_det (spSession 8).board (by decide) 8 0 (by decide) (by decide) hv
  · intro j hj hj9
    interval_cases j
    · exact absurd hj (by decide)
    · exact absurd hj (by decide)
    · exact absurd hj (by decide)
    · exact absurd hj (by decide)
    · exact absurd hj (by decide)
    · exact absurd hj (by decide)
    · exact absurd hj (by decide)
    · exact absurd hj (by decide)
    · rw [hv]; exact jgeInt_int (le_refl 0)
  · intro j hj hj9 hjk
    interval_cases j
    · exact absurd hj (by decide)
    · exact absurd hj (by decide)
    · exact absurd hj (by decide)
    · exact absurd hj (by decide)
    · exact absurd hj (by decide)
    · exact absurd hj (by decide)
    · exact absurd hj (by decide)
    · exact absurd hj (by decide)

lemma spStep8 : selfPlayStep (spSession 8) = spSession 9 := by
  rw [selfPlayStep, if_pos (show (spSession 8).gameState = .playing from rfl)]
  have hc : (spSession 8).currentPlayer = .X := rfl
  rw [hc, spSel8]
  decide


lemma selfPlayN_succ (n : Nat) (st : Session) :
    selfPlayN (n + 1) st = selfPlayN n (selfPlayStep st) := by
  simp only [selfPlayN]

/-- C9: from the empty board, when both sides always play the move their
optimum selector picks (the source `getBestMove` for `'O'`, its minimizing
mirror for `'X'`), the game ends after nine plies in the Drawn phase with
the draw counter bumped and no recorded winner. -/
theorem claim_C9 :
    (selfPlayN 9 initSession).gameState = .draw ∧
    (selfPlayN 9 initSession).winner = none ∧
    (selfPlayN 9 initSession).stats.draws = 1 := by
  have h0 : initSession = spSession 0 := by decide
  have hfin : selfPlayN 9 initSession = spSession 9 := by
    rw [h0, selfPlayN_succ, spStep0, selfPlayN_succ, spStep1, selfPlayN_succ, spStep2,
      selfPlayN_succ, spStep3, selfPlayN_succ, spStep4, selfPlayN_succ, spStep5,
      selfPlayN_succ, spStep6, selfPlayN_succ, spStep7, selfPlayN_succ, spStep8]
    rfl
  rw [hfin]
  exact ⟨rfl, rfl, rfl⟩


end TicTac
